import Mathlib

set_option autoImplicit false

/-!
Verification development for the meeting-orchestration core of the
Board_meeting_analyzer repository (`backend/app/orchestration/meeting_orchestrator.py`
and the AI collaborator modules it composes).

The Python code is shallowly embedded as executable Lean definitions:

* Python `dict`s become association lists (`alistGet` / `alistInsert` mirror
  `dict.get` and item assignment / `dict.update`);
* JSON values become the inductive type `Json`; the standard-library
  `json.loads` is modelled by the executable recursive-descent parser
  `jsonLoads` (restricted to integer numerals and the basic escape
  sequences - none of the theorems below depend on floating-point
  numerals or `\u` escapes);
* Python's `str.strip` is modelled by `pyStrip` (ASCII whitespace plus
  vertical tab and form feed; exotic Unicode space characters are omitted,
  and no theorem depends on them);
* external collaborators whose own bodies catch all exceptions
  (transcription, sentiment tracking, decision/action-item extraction and
  the raw LLM subprocess) are supplied through an `Env` of total functions,
  while collaborator code whose control flow the claims depend on
  (`summarizer.summarize`, `topic_query.query_by_topic`,
  `topic_query.semantic_query`, `llm_client.call_llm`) is translated
  directly from its source;
* a Python call that can raise is embedded in `Except String`, with the
  error string naming the exception;
* the `future.result(timeout=...)` discipline of the worker pool is
  modelled by giving each submitted task a duration in the `Env` and
  computing the time the invoking thread spends blocked
  (`min taskDuration timeout`), following the documented semantics of
  `concurrent.futures`.
-/

/-- Whitespace characters stripped by Python `str.strip()` (ASCII subset;
the rarely used Unicode space characters are not modelled). -/
def isPyWs (c : Char) : Bool :=
  c = ' ' || c = '\t' || c = '\n' || c = '\r' || c = Char.ofNat 11 || c = Char.ofNat 12

/-- Drop trailing characters satisfying `isPyWs` from a character list. -/
def dropEndWs : List Char → List Char
  | [] => []
  | c :: cs =>
    match dropEndWs cs with
    | [] => if isPyWs c then [] else [c]
    | r => c :: r

/-- Characters of a string after Python `str.strip()`. -/
def stripChars (cs : List Char) : List Char :=
  dropEndWs (cs.dropWhile isPyWs)

/-- Model of Python `str.strip()` with no arguments. -/
def pyStrip (s : String) : String :=
  String.mk (stripChars s.toList)

/-- ASCII lowercase conversion of one character (Python `str.lower` on the
character sets that occur here; non-ASCII case folding is not modelled). -/
def pyLowerChar (c : Char) : Char :=
  if 65 ≤ c.toNat ∧ c.toNat ≤ 90 then Char.ofNat (c.toNat + 32) else c

/-- Model of Python `str.lower()`. -/
def pyLower (s : String) : String :=
  String.mk (s.toList.map pyLowerChar)

/-- Code-point lexicographic comparison of character lists, the order
Python `sorted` uses on strings. -/
def strLeb : List Char → List Char → Bool
  | [], _ => true
  | _ :: _, [] => false
  | a :: as, b :: bs =>
    if a.toNat < b.toNat then true
    else if b.toNat < a.toNat then false
    else strLeb as bs

/-- Code-point order on strings (Python's string comparison). -/
def pyLe (a b : String) : Prop := strLeb a.toList b.toList = true

instance : DecidableRel pyLe := fun a b => decEq (strLeb a.toList b.toList) true

/-- The character `{` (written via its code point to keep brace characters
out of string literals). -/
def lbraceC : Char := Char.ofNat 123

/-- The character `}`. -/
def rbraceC : Char := Char.ofNat 125

/-- JSON values, as produced by `json.loads`. Numbers are restricted to
integers; the repository never relies on fractional JSON numbers in the
code paths covered by the claims. -/
inductive Json where
  | null : Json
  | bool : Bool → Json
  | num : Int → Json
  | str : String → Json
  | arr : List Json → Json
  | obj : List (String × Json) → Json

/-- Python truthiness of a JSON value (`bool(value)`). -/
def jsonTruthy : Json → Bool
  | Json.null => false
  | Json.bool b => b
  | Json.num n => n ≠ 0
  | Json.str s => s ≠ ""
  | Json.arr xs => !xs.isEmpty
  | Json.obj fs => !fs.isEmpty

/-- Whether a JSON value is an object, i.e. a Python `dict`
(`isinstance(value, dict)`). -/
def Json.isObj : Json → Bool
  | Json.obj _ => true
  | _ => false

/-- Minimal JSON string escaping used by the `jsonDumps` model. -/
def escapeJson (s : String) : String :=
  String.join (s.toList.map (fun c =>
    if c = '"' then "\\\""
    else if c = '\\' then "\\\\"
    else if c = '\n' then "\\n"
    else if c = '\t' then "\\t"
    else if c = '\r' then "\\r"
    else String.singleton c))

mutual

/-- Model of Python `json.dumps` with default separators. Control-character
and non-ASCII escaping is simplified; no theorem depends on the rendering
of such characters. -/
def jsonDumps : Json → String
  | Json.null => "null"
  | Json.bool true => "true"
  | Json.bool false => "false"
  | Json.num n => toString n
  | Json.str s => "\"" ++ escapeJson s ++ "\""
  | Json.arr xs => "[" ++ dumpsElems xs ++ "]"
  | Json.obj fs => "\x7b" ++ dumpsFields fs ++ "\x7d"

/-- Comma-separated rendering of JSON array elements. -/
def dumpsElems : List Json → String
  | [] => ""
  | [x] => jsonDumps x
  | x :: xs => jsonDumps x ++ ", " ++ dumpsElems xs

/-- Comma-separated rendering of JSON object members. -/
def dumpsFields : List (String × Json) → String
  | [] => ""
  | [(k, v)] => "\"" ++ escapeJson k ++ "\": " ++ jsonDumps v
  | (k, v) :: fs => "\"" ++ escapeJson k ++ "\": " ++ jsonDumps v ++ ", " ++ dumpsFields fs

end

/-- Model of Python `str()` on a JSON value. Exact for `None`, booleans,
integers and strings; containers are rendered via `jsonDumps` (Python uses
`repr` with single quotes there - no theorem depends on that rendering). -/
def pyStr : Json → String
  | Json.null => "None"
  | Json.bool true => "True"
  | Json.bool false => "False"
  | Json.num n => toString n
  | Json.str s => s
  | Json.arr xs => jsonDumps (Json.arr xs)
  | Json.obj fs => jsonDumps (Json.obj fs)

/-- First value bound to a key in an association list, mirroring a lookup
in a Python `dict` whose keys are unique. -/
def alistGet {α β : Type} [DecidableEq α] : List (α × β) → α → Option β
  | [], _ => none
  | (k, v) :: rest, key => if k = key then some v else alistGet rest key

/-- Insert-or-replace for an association list, mirroring `d[key] = value`
on a Python `dict` (an existing key keeps its position, a new key is
appended). -/
def alistInsert {α β : Type} [DecidableEq α] : List (α × β) → α → β → List (α × β)
  | [], key, val => [(key, val)]
  | (k, v) :: rest, key, val =>
    if k = key then (k, val) :: rest else (k, v) :: alistInsert rest key val

/-- Collapse duplicate keys the way building a Python `dict` from parsed
JSON members does: later bindings overwrite earlier ones. -/
def dedupKeys (pairs : List (String × Json)) : List (String × Json) :=
  pairs.foldl (fun acc kv => alistInsert acc kv.1 kv.2) []

/-- JSON insignificant whitespace accepted by `json.loads`. -/
def isJsonWs (c : Char) : Bool :=
  c = ' ' || c = '\t' || c = '\n' || c = '\r'

/-- Skip JSON insignificant whitespace. -/
def skipWs : List Char → List Char
  | [] => []
  | c :: cs => if isJsonWs c then skipWs cs else c :: cs

/-- Parse the remainder of a JSON string literal (after the opening quote),
returning its characters and the rest of the input. -/
def parseStringAux : List Char → Option (List Char × List Char)
  | [] => none
  | c :: cs =>
    if c = '"' then some ([], cs)
    else if c = '\\' then
      match cs with
      | [] => none
      | e :: cs2 =>
        let dec : Option Char :=
          if e = '"' || e = '\\' || e = '/' then some e
          else if e = 'n' then some '\n'
          else if e = 't' then some '\t'
          else if e = 'r' then some '\r'
          else if e = 'b' then some (Char.ofNat 8)
          else if e = 'f' then some (Char.ofNat 12)
          else none
        match dec with
        | some d => (parseStringAux cs2).map (fun p => (d :: p.1, p.2))
        | none => none
    else (parseStringAux cs).map (fun p => (c :: p.1, p.2))

/-- Parse a JSON integer numeral. Fractional or exponent numerals are
rejected (the model's declared restriction). -/
def parseNum (cs : List Char) : Option (Json × List Char) :=
  let signed := match cs with
    | '-' :: r => (true, r)
    | _ => (false, cs)
  let digits := signed.2.takeWhile Char.isDigit
  let rest := signed.2.dropWhile Char.isDigit
  if digits.isEmpty then none
  else
    match rest with
    | '.' :: _ => none
    | 'e' :: _ => none
    | 'E' :: _ => none
    | _ =>
      let n : Nat := digits.foldl (fun a c => a * 10 + (c.toNat - 48)) 0
      some (Json.num (if signed.1 then -(n : Int) else (n : Int)), rest)

mutual

/-- Fuel-indexed recursive-descent parser for a JSON value, modelling
`json.loads` on the fragment described at `Json`. -/
def parseVal : Nat → List Char → Option (Json × List Char)
  | 0, _ => none
  | _ + 1, [] => none
  | fuel + 1, c :: rest =>
    if c = 'n' then
      match rest with
      | 'u' :: 'l' :: 'l' :: r => some (Json.null, r)
      | _ => none
    else if c = 't' then
      match rest with
      | 'r' :: 'u' :: 'e' :: r => some (Json.bool true, r)
      | _ => none
    else if c = 'f' then
      match rest with
      | 'a' :: 'l' :: 's' :: 'e' :: r => some (Json.bool false, r)
      | _ => none
    else if c = '"' then
      (parseStringAux rest).map (fun p => (Json.str (String.mk p.1), p.2))
    else if c = '[' then
      match skipWs rest with
      | ']' :: r2 => some (Json.arr [], r2)
      | cs2 => (parseElems fuel cs2).map (fun p => (Json.arr p.1, p.2))
    else if c = lbraceC then
      match skipWs rest with
      | [] => none
      | d :: r2 =>
        if d = rbraceC then some (Json.obj [], r2)
        else (parseMembers fuel (d :: r2)).map (fun p => (Json.obj (dedupKeys p.1), p.2))
    else parseNum (c :: rest)

/-- Parse one or more comma-separated JSON array elements up to the
closing bracket. -/
def parseElems : Nat → List Char → Option (List Json × List Char)
  | 0, _ => none
  | fuel + 1, cs =>
    match parseVal fuel cs with
    | none => none
    | some (v, r) =>
      match skipWs r with
      | ',' :: r2 => (parseElems fuel (skipWs r2)).map (fun p => (v :: p.1, p.2))
      | ']' :: r2 => some ([v], r2)
      | _ => none

/-- Parse one or more comma-separated JSON object members up to the
closing brace. -/
def parseMembers : Nat → List Char → Option (List (String × Json) × List Char)
  | 0, _ => none
  | fuel + 1, cs =>
    match cs with
    | '"' :: r =>
      match parseStringAux r with
      | none => none
      | some (kChars, r1) =>
        match skipWs r1 with
        | ':' :: r2 =>
          match parseVal fuel (skipWs r2) with
          | none => none
          | some (v, r3) =>
            match skipWs r3 with
            | ',' :: r4 =>
              (parseMembers fuel (skipWs r4)).map
                (fun p => ((String.mk kChars, v) :: p.1, p.2))
            | d :: r4 =>
              if d = rbraceC then some ([(String.mk kChars, v)], r4) else none
            | [] => none
        | _ => none
    | _ => none

end

/-- Model of `json.loads`: parse a complete JSON document, requiring only
whitespace after the value (Python raises `JSONDecodeError`, i.e. `none`
here, on trailing garbage). -/
def jsonLoads (s : String) : Option Json :=
  match parseVal (2 * s.length + 2) (skipWs s.toList) with
  | some (v, rest) => if (skipWs rest).isEmpty then some v else none
  | none => none

/-- The Python value handed to `MeetingOrchestrator._parse_json`: a dict,
a string, or anything else (e.g. `None` from `_invoke_langchain`). -/
inductive PyVal where
  | dict : List (String × Json) → PyVal
  | str : String → PyVal
  | other : PyVal

/-- Index of the first occurrence of a character, `str.find` style. -/
def firstIdxOf (cs : List Char) (c : Char) : Option Nat :=
  cs.findIdx? (fun d => d = c)

/-- Index of the last occurrence of a character, `str.rfind` style. -/
def lastIdxOf (cs : List Char) (c : Char) : Option Nat :=
  match firstIdxOf cs.reverse c with
  | some i => some (cs.length - 1 - i)
  | none => none

/-- The substring from the first `{` to the last `}` used by the brace-scan
recovery step of `_parse_json`; `none` when either brace is missing or the
last `}` does not come after the first `{`. -/
def braceSlice (text : String) : Option String :=
  let cs := text.toList
  match firstIdxOf cs lbraceC, lastIdxOf cs rbraceC with
  | some start, some stop =>
    if stop ≤ start then none
    else some (String.mk ((cs.drop start).take (stop - start + 1)))
  | _, _ => none

/-- Translation of `MeetingOrchestrator._parse_json`
(`meeting_orchestrator.py` lines 459-488): a dict is returned as-is, a
string is stripped then parsed strictly, then via the brace slice; anything
else, or total parse failure, yields `none`. -/
def parse_json : PyVal → Option (List (String × Json))
  | PyVal.dict o => some o
  | PyVal.other => none
  | PyVal.str raw =>
    let text := pyStrip raw
    if text = "" then none
    else
      match jsonLoads text with
      | some (Json.obj o) => some o
      | _ =>
        match braceSlice text with
        | none => none
        | some sub =>
          match jsonLoads sub with
          | some (Json.obj o) => some o
          | _ => none

/-- Outcome of the `subprocess.run(["ollama", "run", "llama3"], ...)` call
inside `call_llm`, abstracting the operating-system side of the call. -/
inductive ProcOutcome where
  | completed : Int → String → String → ProcOutcome
  | timedOut : ProcOutcome
  | notFound : ProcOutcome
  | failed : String → ProcOutcome

/-- The `{error, raw_output}` dictionary `call_llm` builds on failure. -/
def llmErrorDict (err raw : String) : Json :=
  Json.obj [("error", Json.str err), ("raw_output", Json.str raw)]

/-- Decimal rendering of the timeout used in the `call_llm` timeout
message; exact for whole-second timeouts (`30.0` for the default). -/
def floatRepr (q : ℚ) : String :=
  if q.den = 1 then toString q.num ++ ".0"
  else toString q.num ++ "/" ++ toString q.den

/-- Translation of `llm_client.call_llm` (`llm_client.py` lines 9-78).
The subprocess result is a parameter; `completed rc out err` is a finished
process, the other constructors are `TimeoutExpired`, `FileNotFoundError`
and any other exception (all caught in the source). On success the strict
JSON parse of stdout is returned unchanged, whatever JSON value it is. -/
def call_llm (proc : ProcOutcome) (timeout : ℚ := 30) : Json :=
  match proc with
  | ProcOutcome.completed rc out errStream =>
    let output := pyStrip out
    if rc ≠ 0 then
      llmErrorDict "LLM process failed" (if output ≠ "" then output else errStream)
    else
      match jsonLoads output with
      | some v => v
      | none => llmErrorDict "Invalid JSON from LLM" output
  | ProcOutcome.timedOut => llmErrorDict ("LLM timeout after " ++ floatRepr timeout ++ "s") ""
  | ProcOutcome.notFound => llmErrorDict "Ollama not found" ""
  | ProcOutcome.failed msg => llmErrorDict msg ""

/-- A chunk record as stored by the API layer: a Python dict whose
`speaker`/`text` keys may in principle be absent (`none`), and whose
`timestamp` value may be any JSON value or absent. -/
structure Chunk where
  speaker : Option String := none
  text : Option String := none
  timestamp : Option Json := none

/-- Meeting metadata dict passed into the orchestrator. -/
abbrev MD := List (String × Json)

/-- Truthiness check plus `metadata.get("status") == "no_audio"`, exactly
the guard `if metadata and metadata.get("status") == "no_audio"`. -/
def mdNoAudio : Option MD → Bool
  | none => false
  | some m =>
    !m.isEmpty &&
      (match alistGet m "status" with
       | some (Json.str s) => s = "no_audio"
       | _ => false)

/-- The cached transcript artifact built by
`MeetingOrchestrator._get_transcript_artifact`. -/
structure Artifact where
  meetingId : String
  chunkCount : Nat
  speakers : List String
  transcriptText : String
  contextMessage : String

/-- Speaker name of a chunk after
`str(chunk.get("speaker", "Unknown")).strip() or "Unknown"`. -/
def chunkSpeaker (c : Chunk) : String :=
  let s := pyStrip (c.speaker.getD "Unknown")
  if s = "" then "Unknown" else s

/-- Lexicographically sorted list of strings, modelling Python `sorted`
(code-point order). -/
def sortStrings (l : List String) : List String :=
  List.insertionSort pyLe l

/-- The metadata payload embedded in the context message: the base entries
`meeting_id`, `chunk_count`, `speaker_count`, `speakers`, updated with the
caller-supplied metadata (`metadata_payload.update(metadata)`). -/
def metadataPayloadOf (mid : String) (cc : Nat) (speakers : List String)
    (md : Option MD) : MD :=
  let base : MD :=
    [("meeting_id", Json.str mid),
     ("chunk_count", Json.num cc),
     ("speaker_count", Json.num speakers.length),
     ("speakers", Json.arr (speakers.map Json.str))]
  match md with
  | none => base
  | some m => m.foldl (fun acc kv => alistInsert acc kv.1 kv.2) base

/-- Translation of `MeetingOrchestrator._build_context_message`. -/
def build_context_message (mdPayload : MD) (transcriptText : String) : String :=
  "MEETING METADATA:\n" ++ jsonDumps (Json.obj mdPayload) ++ "\n\n" ++
    "FULL TRANSCRIPT:\n" ++ transcriptText

/-- The body of the transcript-building loop of
`_get_transcript_artifact`: a chunk with empty stripped text contributes
no line; a `None` or empty-string timestamp omits the bracket prefix. -/
def renderLine (c : Chunk) : Option String :=
  let text := pyStrip (c.text.getD "")
  if text = "" then none
  else
    let speaker := chunkSpeaker c
    match c.timestamp with
    | none => some (speaker ++ ": " ++ text)
    | some (Json.str "") => some (speaker ++ ": " ++ text)
    | some v => some ("[" ++ pyStr v ++ "s] " ++ speaker ++ ": " ++ text)

/-- The non-cached computation of
`MeetingOrchestrator._get_transcript_artifact` (`meeting_orchestrator.py`
lines 383-424): speakers are collected over all chunks, transcript lines
only over chunks with non-empty stripped text, and an empty transcript is
replaced by a status-aware placeholder. -/
def buildTranscriptArtifact (mid : String) (chunks : List Chunk)
    (md : Option MD) : Artifact :=
  let chunkCount := chunks.length
  let speakers := sortStrings (chunks.map chunkSpeaker).dedup
  let lines := chunks.filterMap renderLine
  let transcriptJoined := pyStrip (String.intercalate "\n" lines)
  let transcriptText :=
    if transcriptJoined = "" then
      if mdNoAudio md then "No audio was detected in this meeting."
      else "No transcript data available yet."
    else transcriptJoined
  { meetingId := mid
    chunkCount := chunkCount
    speakers := speakers
    transcriptText := transcriptText
    contextMessage :=
      build_context_message (metadataPayloadOf mid chunkCount speakers md) transcriptText }

/-- Per-speaker sentiment statistics as returned by
`sentiment.get_sentiment_breakdown` (an external collaborator whose body
catches all exceptions); the fractional overall score is carried as a
rational. -/
structure SpeakerStats where
  overallScore : ℚ := 0
  statementCount : Nat := 0
  positiveCount : Nat := 0
  negativeCount : Nat := 0
  neutralCount : Nat := 0
  dominantEmotion : String := "neutral"
  emotions : List (String × Nat) := []

/-- The sentiment breakdown map, speaker name to statistics. -/
abbrev SentBreak := List (String × SpeakerStats)

/-- The analysis payload assembled by `MeetingOrchestrator.analyze_meeting`
(its `payload` dict). Decision and action-item records are opaque JSON
values produced by the extraction collaborators. -/
structure Payload where
  meetingId : String
  summary : String
  keyPoints : List String
  decisions : List Json
  actionItems : List Json
  sentimentBreakdown : SentBreak
  speakers : List String

/-- One entry of the analysis cache: the chunk count it was computed at and
the stored payload. -/
structure AnalysisEntry where
  chunkCount : Nat
  payload : Payload


/-- Cache key of the QA cache: (operation kind, meeting id, chunk count,
lowercased stripped query text). -/
abbrev QAKey := String × String × Nat × String

/-- One entry of the QA cache; `relevantChunks` is present only for
entries stored by `semantic_query` (`ask_question` stores only the
answer). -/
structure QAEntry where
  answer : String
  relevantChunks : Option (List Chunk) := none

/-- The orchestrator's three process-wide caches
(`_transcript_cache`, `_analysis_cache`, `_qa_cache`). -/
structure OrchState where
  transcriptCache : List (String × Artifact) := []
  analysisCache : List (String × AnalysisEntry) := []
  qaCache : List (QAKey × QAEntry) := []

/-- The empty cache state of a freshly constructed orchestrator. -/
def emptyState : OrchState := {}

/-- Translation of `MeetingOrchestrator._get_transcript_artifact` including
its cache: a cached artifact is served whenever its stored chunk count
matches `len(chunks)`, otherwise the artifact is rebuilt and replaces the
cache entry. -/
def get_transcript_artifact (st : OrchState) (mid : String) (chunks : List Chunk)
    (md : Option MD) : Artifact × OrchState :=
  let rebuilt :=
    let a := buildTranscriptArtifact mid chunks md
    (a, { st with transcriptCache := alistInsert st.transcriptCache mid a })
  match alistGet st.transcriptCache mid with
  | some a => if a.chunkCount = chunks.length then (a, st) else rebuilt
  | none => rebuilt

/-- Orchestrator configuration, read in `MeetingOrchestrator.__init__` via
`getattr(config, ..., default)`. The repository's `config` object defines
none of these attributes, so the defaults shown here are the live values. -/
structure Cfg where
  useLangchain : Bool := true
  n8nWebhookUrl : String := ""
  n8nTimeout : ℚ := 5 / 2
  llmTimeout : Int := 30

/-- Opaque audio buffer handed to `process_audio_chunk`. -/
abbrev Audio := List Int

/-- Behaviour of the external collaborators during one scenario, plus the
durations of the tasks handed to the worker pool (used by the timing
model). Each function is total because the corresponding Python body
catches every exception (`realtime_stt.transcribe_audio`,
`sentiment.track_speaker_sentiment`, `decision_extractor.extract_decisions`,
`action_items.extract_action_items`, `sentiment.get_sentiment_breakdown`,
`llm_client.call_llm`). -/
structure Env where
  transcribe : Audio → Bool × String := fun _ => (true, "ok")
  trackSentiment : String → String → Json := fun _ _ => Json.obj []
  sentimentBreakdown : SentBreak := []
  decisionsResult : String → List Json := fun _ => []
  actionItemsResult : String → List Json := fun _ => []
  langchainAvailable : Bool := true
  langchainResponse : String → String → String → String → Option String :=
    fun _ _ _ _ => none
  callLlm : String → String → Json := fun _ _ => Json.obj []
  chainTaskDur : Int := 0
  refineTaskDur : Int := 0
  fallbackDur : Int := 0

/-- Observable collaborator invocations of one orchestrator call, used to
state the "no LLM call / no downstream work" parts of the claims. -/
inductive Effect where
  | chainSubmit : Effect
  | fallbackLlm : Effect
  | summarizeCall : Effect
  | decisionsCall : Effect
  | actionItemsCall : Effect
  | n8nPost : Effect
deriving DecidableEq

/-- Translation of `MeetingOrchestrator._extract_text`: the first candidate
key bound to a non-empty-after-strip string wins; otherwise a string
`raw_output` value is used; otherwise the empty string. -/
def extract_text (payload : List (String × Json)) (keys : List String) : String :=
  let fromKeys := keys.findSome? (fun k =>
    match alistGet payload k with
    | some (Json.str v) => if pyStrip v ≠ "" then some (pyStrip v) else none
    | _ => none)
  match fromKeys with
  | some v => v
  | none =>
    match alistGet payload "raw_output" with
    | some (Json.str r) => if pyStrip r ≠ "" then pyStrip r else ""
    | _ => ""

/-- Translation of `MeetingOrchestrator._extract_list`: a list value is
mapped through `str(...).strip()` keeping the non-empty results, anything
else gives the empty list. -/
def extract_list (payload : List (String × Json)) (key : String) : List String :=
  match alistGet payload key with
  | some (Json.arr items) =>
    (items.map (fun j => pyStrip (pyStr j))).filter (fun s => s ≠ "")
  | _ => []

/-- Translation of `MeetingOrchestrator._format_schema_hint`. -/
def format_schema_hint (responseSchema : Option (List (String × Json))) : String :=
  match responseSchema with
  | none => "\x7b\"answer\":\"string\"\x7d"
  | some [] => "\x7b\"answer\":\"string\"\x7d"
  | some schema => jsonDumps (Json.obj schema)

/-- Translation of `MeetingOrchestrator._compose_fallback_prompt`. -/
def compose_fallback_prompt (contextMessage userMessage schemaHint : String) : String :=
  "CONTEXT MESSAGE:\n" ++ contextMessage ++ "\n\n" ++
    "USER MESSAGE:\n" ++ userMessage ++ "\n\n" ++
    "RESPONSE FORMAT:\n" ++ schemaHint ++ "\n\n" ++
    "Return ONLY valid JSON."

/-- Translation of `MeetingOrchestrator._invoke_langchain`: `none` models
every failure mode the source catches (missing langchain import, inner
pool timeout, any exception) as well as an empty response after
`str(response or "").strip() or None`. -/
def invoke_langchain (env : Env) (systemMessage contextMessage userMessage schemaHint : String) :
    Option String :=
  if !env.langchainAvailable then none
  else
    match env.langchainResponse systemMessage contextMessage userMessage schemaHint with
    | none => none
    | some r => if pyStrip r = "" then none else some (pyStrip r)

/-- Translation of `MeetingOrchestrator._run_json_chain`
(`meeting_orchestrator.py` lines 267-306): langchain path first (its text
recovered through `_parse_json`), then the raw `call_llm` fallback, whose
dict result is returned as-is unless it is an error dict with a string
`raw_output` that itself parses to a dict; a non-dict result goes through
`_parse_json`; total failure yields the empty mapping. -/
def run_json_chain (cfg : Cfg) (env : Env)
    (systemMessage contextMessage : String) (userMessage : Option String)
    (responseSchema : Option (List (String × Json))) : List (String × Json) :=
  let schemaHint := format_schema_hint responseSchema
  let userPayload := userMessage.getD ""
  let fromLangchain : Option (List (String × Json)) :=
    if cfg.useLangchain then
      match invoke_langchain env systemMessage contextMessage userPayload schemaHint with
      | some rawText => parse_json (PyVal.str rawText)
      | none => none
    else none
  match fromLangchain with
  | some parsed => parsed
  | none =>
    let fallbackPrompt := compose_fallback_prompt contextMessage userPayload schemaHint
    let payload := env.callLlm fallbackPrompt systemMessage
    match payload with
    | Json.obj o =>
      let tryRaw :=
        match alistGet o "error", alistGet o "raw_output" with
        | some errVal, some (Json.str rawOut) =>
          if jsonTruthy errVal then parse_json (PyVal.str rawOut) else none
        | _, _ => none
      match tryRaw with
      | some parsed => parsed
      | none => o
    | Json.str s =>
      match parse_json (PyVal.str s) with
      | some parsed => parsed
      | none => []
    | _ => []

/-- Whether `needle` occurs as a contiguous sublist of `hay` (Python's
`needle in hay` on strings; true for the empty needle). -/
def subListOf (needle : List Char) : List Char → Bool
  | [] => needle.isEmpty
  | c :: rest => List.isPrefixOf needle (c :: rest) || subListOf needle rest

/-- Python `needle in hay` on strings. -/
def strContains (hay needle : String) : Bool :=
  subListOf needle.toList hay.toList

/-- Accumulating pass behind `pyWords`; the second argument is the current
word, reversed. -/
def wordsAux : List Char → List Char → List String
  | [], acc => if acc.isEmpty then [] else [String.mk acc.reverse]
  | c :: cs, acc =>
    if isPyWs c then
      if acc.isEmpty then wordsAux cs [] else String.mk acc.reverse :: wordsAux cs []
    else wordsAux cs (c :: acc)

/-- Python `str.split()` with no arguments: whitespace-separated words,
no empties. -/
def pyWords (s : String) : List String :=
  wordsAux s.toList []

/-- Translation of `topic_query.query_by_topic` (`topic_query.py` lines
8-33): case-insensitive keyword containment of the whole topic or any of
its words. The source's blanket `except` never fires in this total model. -/
def query_by_topic (chunks : List Chunk) (topic : String) : List Chunk :=
  let topicLower := pyLower topic
  chunks.filter (fun c =>
    let text := pyLower (c.text.getD "")
    strContains text topicLower || (pyWords topicLower).any (fun w => strContains text w))

/-- Translation of `topic_query.semantic_query` (`topic_query.py` lines
36-78), imported by the orchestrator as `semantic_query_fallback`: one raw
`call_llm` request over the first 20 chunks, answer taken from the result's
`answer` key (default `str(result)`), relevant chunks via `query_by_topic`
on the first word of the query. -/
def semantic_query_fallback (env : Env) (chunks : List Chunk) (query : String) :
    List Chunk × Json :=
  let chunksText := String.intercalate "\n"
    ((chunks.take 20).map (fun c => (c.speaker.getD "Unknown") ++ ": " ++ (c.text.getD "")))
  let system := "You answer questions about board meetings using the provided transcript."
  let prompt :=
    "\nBased on the meeting transcript below, answer the following question:\n\n" ++
      "Question: " ++ query ++ "\n\nTranscript:\n" ++ chunksText ++
      "\n\nProvide a concise, factual answer.\n"
  let result := env.callLlm prompt system
  let answer : Json :=
    match result with
    | Json.obj o => (alistGet o "answer").getD (Json.str (pyStr (Json.obj o)))
    | other => Json.str (pyStr other)
  let firstWord :=
    match pyWords query with
    | w :: _ => w
    | [] => query
  (query_by_topic chunks firstWord, answer)

/-- Translation of `MeetingOrchestrator._select_relevant_chunks`. -/
def select_relevant_chunks (chunks : List Chunk) (query : String) : List Chunk :=
  let found := query_by_topic chunks query
  if !found.isEmpty then found.take 25 else chunks.take 25

/-- Two-decimal rendering used for `f"score={overall:.2f}"`, modelled with
round-half-up on rationals (Python formats binary floats with half-even
rounding; no theorem depends on this rendering). -/
def fmt2 (q : ℚ) : String :=
  let scaled : Int := ⌊q * 100 + 1 / 2⌋
  let sign := if scaled < 0 then "-" else ""
  let a := scaled.natAbs
  sign ++ toString (a / 100) ++ "." ++
    (if a % 100 < 10 then "0" else "") ++ toString (a % 100)

/-- Translation of `MeetingOrchestrator._build_sentiment_context`. -/
def build_sentiment_context (sb : SentBreak) : String :=
  if sb.isEmpty then "No sentiment signals available."
  else
    String.intercalate "\n" (sb.map (fun p =>
      p.1 ++ ": score=" ++ fmt2 p.2.overallScore ++
        ", positive=" ++ toString p.2.positiveCount ++
        ", neutral=" ++ toString p.2.neutralCount ++
        ", negative=" ++ toString p.2.negativeCount ++
        ", dominant_emotion=" ++ p.2.dominantEmotion))

/-- The line rendering `f"\x7bc['speaker']\x7d: \x7bc['text']\x7d"` inside
`summarizer.summarize`, over the whole chunk list; the subscript access
raises `KeyError` at the first chunk missing either key. -/
def chunkLines : List Chunk → Except String (List String)
  | [] => Except.ok []
  | c :: cs =>
    match c.speaker, c.text with
    | some s, some t =>
      match chunkLines cs with
      | Except.ok rest => Except.ok ((s ++ ": " ++ t) :: rest)
      | Except.error e => Except.error e
    | none, _ => Except.error "KeyError: speaker"
    | _, none => Except.error "KeyError: text"

/-- Translation of `summarizer.summarize` (`summarizer.py` lines 3-28).
Unlike every other AI collaborator module, its body has no `try/except`,
and it reads `c['speaker']` / `c['text']` by subscript, so a chunk dict
missing either key raises a `KeyError` that the function propagates. -/
def summarize (env : Env) (chunks : List Chunk) (length : String := "short")
    (focusTopic : Option String := none) : Except String Json :=
  match chunkLines chunks with
  | Except.error e => Except.error e
  | Except.ok lines =>
  let text := String.intercalate "\n" lines
  let system := "You summarize board meetings accurately."
  let topicClause :=
    match focusTopic with
    | some ft => "Focus ONLY on topic: " ++ ft
    | none => ""
  let prompt :=
    "\nSummarize the meeting.\n\nSummary length: " ++ length ++ "\n" ++ topicClause ++
      "\n\nConversation:\n" ++ text ++
      "\n\nReturn format:\n\x7b\n  \"summary\": \"string\",\n  \"key_points\": [\"point1\", \"point2\"]\n\x7d\n"
  Except.ok (env.callLlm prompt system)

/-- Python `str(value or "").strip()` applied to a JSON value (used on
`summary_result.get("summary")` and on the fallback answer). -/
def pyStripTruthy (j : Json) : String :=
  pyStrip (if jsonTruthy j then pyStr j else "")

/-- Result of waiting on a pool future with `future.result(timeout=...)`:
the task's value if it finishes within the budget, otherwise `none`
(`FutureTimeoutError`); the second component is the time the invoking
thread spends blocked. Modelled from the documented semantics of
`concurrent.futures` (the timed-out task keeps running in the pool and is
not cancelled). -/
def futureResult {α : Type} (timeout taskDur : Int) (value : α) : Option α × Int :=
  if taskDur ≤ timeout then (some value, taskDur) else (none, timeout)

/-- The pure part of `_summarize_with_sentiment` after the baseline
summarize call succeeded: parse the baseline, run the refinement chain on
the pool with the configured timeout, and let non-empty refined values
override the baseline. -/
def refineSummary (cfg : Cfg) (env : Env) (artifact : Artifact) (sb : SentBreak)
    (summaryResult : Json) :
    (String × List String × SentBreak) × List Effect × List Int :=
  let baseline :=
    match summaryResult with
    | Json.obj o =>
      (pyStripTruthy ((alistGet o "summary").getD Json.null), extract_list o "key_points")
    | other => (if jsonTruthy other then pyStrip (pyStr other) else "", ([] : List String))
  let summary := baseline.1
  let keyPoints := baseline.2
  if summary = "" ∧ keyPoints = [] then (("", [], sb), [Effect.summarizeCall], [])
  else
    let sentimentContext := build_sentiment_context sb
    let contextMessage :=
      artifact.contextMessage ++ "\n\n" ++ "SENTIMENT SIGNALS:\n" ++ sentimentContext
    let chainValue := run_json_chain cfg env
      "You refine board meeting summaries using transcript context and internal sentiment signals."
      contextMessage
      (some "Produce a concise factual summary and key points.")
      (some [("summary", Json.str "string"), ("key_points", Json.arr [Json.str "string"])])
    let waited := futureResult cfg.llmTimeout env.refineTaskDur chainValue
    let payload := waited.1.getD []
    let improvedSummary := extract_text payload ["summary"]
    let improvedPoints := extract_list payload "key_points"
    let finalSummary := if improvedSummary ≠ "" then improvedSummary else summary
    let finalPoints := if improvedPoints ≠ [] then improvedPoints else keyPoints
    ((finalSummary, finalPoints, sb), [Effect.summarizeCall, Effect.chainSubmit], [waited.2])

/-- Translation of `MeetingOrchestrator._summarize_with_sentiment`
(`meeting_orchestrator.py` lines 207-265): baseline summary via
`summarize`, then a refinement `_run_json_chain` on the pool bounded by the
timeout; non-empty refined values override the baseline. Returns the
summary, key points and breakdown together with the effect trace and the
list of times spent blocked on pool futures. -/
def summarize_with_sentiment (cfg : Cfg) (env : Env) (chunks : List Chunk)
    (artifact : Artifact) :
    Except String ((String × List String × SentBreak) × List Effect × List Int) :=
  if chunks.isEmpty then Except.ok (("", [], env.sentimentBreakdown), [], [])
  else
    match summarize env chunks "short" none with
    | Except.error e => Except.error e
    | Except.ok summaryResult =>
      Except.ok (refineSummary cfg env artifact env.sentimentBreakdown summaryResult)

/-- The key-points merge loop of `MeetingOrchestrator.analyze_meeting`
(lines 175-181): the summary first when truthy, then each stripped point
that is non-empty and not already present. -/
def mergeStep (acc : List String) (point : String) : List String :=
  let normalized := pyStrip point
  if normalized ≠ "" ∧ normalized ∉ acc then acc ++ [normalized] else acc

/-- The merged key-points list (`merged_points` in the source). -/
def mergedPoints (summaryOverview : String) (keyPoints : List String) : List String :=
  keyPoints.foldl mergeStep (if summaryOverview ≠ "" then [summaryOverview] else [])

/-- Modelled from the spec: the merge policy in the claim's own words -
"start with the summary text as its first element when the summary is
non-empty, followed by each trimmed key point that is not already
string-equal to an element of the list so far, preserving first-seen
order". Stated for comparison with `mergedPoints`, which is translated
from the code. -/
def mergeSpecStep (acc : List String) (p : String) : List String :=
  let t := pyStrip p
  if t ∉ acc then acc ++ [t] else acc

/-- The spec-worded merge (see `mergeSpecStep`). -/
def mergeSpecPoints (summary : String) (points : List String) : List String :=
  points.foldl mergeSpecStep (if summary ≠ "" then [summary] else [])

/-- Result of `ask_question` / `semantic_query`: answer (plus relevant
chunks for the semantic variant), successor cache state, effect trace,
times blocked on pool futures, and the total modelled duration of the
call (the steps without an `Env` duration take no modelled time). -/
structure QAOut where
  relevantChunks : List Chunk := []
  answer : String
  state : OrchState
  effects : List Effect := []
  waits : List Int := []
  elapsed : Int := 0

/-- The fixed fallback answer used when every answer source came up
empty. -/
def noDetailMsg : String :=
  "I could not find enough detail in the transcript to answer that."

/-- The final answer substitution shared by both query paths: an empty
produced answer becomes the fixed no-detail message. -/
def finalAnswer (v : String) : String :=
  if v = "" then noDetailMsg else v

/-- The cache-miss answer pipeline shared textually by `ask_question`
(lines 129-151): submit `_run_json_chain` to the pool, wait at most the
configured timeout, fall back to `semantic_query_fallback` when no answer
was extracted, and finally substitute the fixed no-detail message. Returns
(answer, effects, time blocked on the future, total modelled duration). -/
def askProduce (cfg : Cfg) (env : Env) (artifact : Artifact) (chunks : List Chunk)
    (questionValue : String) : String × List Effect × Int × Int :=
  let chainValue := run_json_chain cfg env
    "You are a board meeting assistant. Answer only from the provided transcript context."
    artifact.contextMessage (some questionValue)
    (some [("answer", Json.str "string")])
  let waited := futureResult cfg.llmTimeout env.chainTaskDur chainValue
  let firstAnswer :=
    match waited.1 with
    | some payload => extract_text payload ["answer", "response", "result"]
    | none => ""
  let viaFallback :=
    if firstAnswer = "" then
      (pyStripTruthy (semantic_query_fallback env chunks questionValue).2,
        [Effect.fallbackLlm], env.fallbackDur)
    else (firstAnswer, [], 0)
  let answer := finalAnswer viaFallback.1
  (answer, [Effect.chainSubmit] ++ viaFallback.2.1, waited.2, waited.2 + viaFallback.2.2)

/-- The cache-miss pipeline of `semantic_query` (lines 72-104): select
relevant chunks by keyword, run the bounded chain, fall back, and prefer
the fallback's chunks when it found any. Returns (answer, relevant chunks,
effects, time blocked on the future, total modelled duration). -/
def semProduce (cfg : Cfg) (env : Env) (artifact : Artifact) (chunks : List Chunk)
    (queryValue : String) : String × List Chunk × List Effect × Int × Int :=
  let selected := select_relevant_chunks chunks queryValue
  let chainValue := run_json_chain cfg env
    "You are a board meeting assistant. Answer only from the provided transcript context."
    artifact.contextMessage (some queryValue)
    (some [("answer", Json.str "string")])
  let waited := futureResult cfg.llmTimeout env.chainTaskDur chainValue
  let firstAnswer :=
    match waited.1 with
    | some payload => extract_text payload ["answer", "response", "result"]
    | none => ""
  let viaFallback :=
    if firstAnswer = "" then
      let fb := semantic_query_fallback env chunks queryValue
      (pyStripTruthy fb.2, if !fb.1.isEmpty then fb.1 else selected,
        [Effect.fallbackLlm], env.fallbackDur)
    else (firstAnswer, selected, [], 0)
  let answer := finalAnswer viaFallback.1
  (answer, viaFallback.2.1, [Effect.chainSubmit] ++ viaFallback.2.2.1,
    waited.2, waited.2 + viaFallback.2.2.2)

/-- Translation of `MeetingOrchestrator.ask_question`
(`meeting_orchestrator.py` lines 106-154). -/
def ask_question (cfg : Cfg) (env : Env) (st : OrchState) (mid : String)
    (chunks : List Chunk) (question : Option String) (md : Option MD) : QAOut :=
  let got := get_transcript_artifact st mid chunks md
  let artifact := got.1
  let st1 := got.2
  let questionValue := pyStrip (question.getD "")
  if chunks.isEmpty then
    if mdNoAudio md then
      { answer := "I didn’t receive any audio input for this meeting, so I can’t provide any details.",
        state := st1 }
    else
      { answer := "No transcript yet. You can still ask questions.", state := st1 }
  else if questionValue = "" then
    { answer := artifact.transcriptText, state := st1 }
  else
    let key : QAKey := ("ask", mid, artifact.chunkCount, pyLower questionValue)
    match alistGet st1.qaCache key with
    | some cached => { answer := cached.answer, state := st1 }
    | none =>
      let produced := askProduce cfg env artifact chunks questionValue
      { answer := produced.1
        state := { st1 with
          qaCache := alistInsert st1.qaCache key { answer := produced.1 } }
        effects := produced.2.1
        waits := [produced.2.2.1]
        elapsed := produced.2.2.2 }

/-- Translation of `MeetingOrchestrator.semantic_query`
(`meeting_orchestrator.py` lines 49-104). -/
def semantic_query (cfg : Cfg) (env : Env) (st : OrchState) (mid : String)
    (chunks : List Chunk) (query : Option String) (md : Option MD) : QAOut :=
  let got := get_transcript_artifact st mid chunks md
  let artifact := got.1
  let st1 := got.2
  let queryValue := pyStrip (query.getD "")
  if chunks.isEmpty then
    if mdNoAudio md then
      { answer := "I didn’t receive any audio input for this meeting, so I can’t answer questions about the discussion.",
        state := st1 }
    else
      { answer := "No transcript yet. You can still ask questions.", state := st1 }
  else if queryValue = "" then
    { relevantChunks := chunks, answer := artifact.transcriptText, state := st1 }
  else
    let key : QAKey := ("semantic", mid, artifact.chunkCount, pyLower queryValue)
    match alistGet st1.qaCache key with
    | some cached =>
      { relevantChunks := cached.relevantChunks.getD [], answer := cached.answer, state := st1 }
    | none =>
      let produced := semProduce cfg env artifact chunks queryValue
      { relevantChunks := produced.2.1
        answer := produced.1
        state := { st1 with
          qaCache := alistInsert st1.qaCache key
            { answer := produced.1, relevantChunks := some produced.2.1 } }
        effects := produced.2.2.1
        waits := [produced.2.2.2.1]
        elapsed := produced.2.2.2.2 }

/-- Result of `analyze_meeting`. -/
structure AnalyzeOut where
  payload : Payload
  state : OrchState
  effects : List Effect
  waits : List Int

/-- The cache-miss body of `MeetingOrchestrator.analyze_meeting` (lines
168-205): summarize with sentiment, extract decisions and action items
when `full_text` is truthy, merge the key points, store the payload in the
analysis cache and fire the best-effort webhook (a no-op here because the
configured URL defaults to the empty string). -/
def computeAnalysis (cfg : Cfg) (env : Env) (st1 : OrchState) (mid : String)
    (chunks : List Chunk) (fullText : String) (artifact : Artifact) :
    Except String AnalyzeOut :=
  match summarize_with_sentiment cfg env chunks artifact with
  | Except.error e => Except.error e
  | Except.ok step =>
  let summaryOverview := step.1.1
  let keyPoints := step.1.2.1
  let sb := step.1.2.2
  let decisionsPart :=
    if fullText ≠ "" then (env.decisionsResult fullText, [Effect.decisionsCall])
    else ([], [])
  let actionsPart :=
    if fullText ≠ "" then (env.actionItemsResult fullText, [Effect.actionItemsCall])
    else ([], [])
  let payload : Payload :=
    { meetingId := mid
      summary := artifact.transcriptText
      keyPoints := mergedPoints summaryOverview keyPoints
      decisions := decisionsPart.1
      actionItems := actionsPart.1
      sentimentBreakdown := sb
      speakers := artifact.speakers }
  let st2 := { st1 with
    analysisCache := alistInsert st1.analysisCache mid
      { chunkCount := artifact.chunkCount, payload := payload } }
  let webhook := if cfg.n8nWebhookUrl ≠ "" then [Effect.n8nPost] else []
  Except.ok { payload := payload
              state := st2
              effects := step.2.1 ++ decisionsPart.2 ++ actionsPart.2 ++ webhook
              waits := step.2.2 }

/-- Translation of `MeetingOrchestrator.analyze_meeting`
(`meeting_orchestrator.py` lines 156-205): a cached payload whose stored
chunk count matches is returned with no further work; otherwise the full
analysis is recomputed and replaces the cache entry. -/
def analyze_meeting (cfg : Cfg) (env : Env) (st : OrchState) (mid : String)
    (chunks : List Chunk) (fullText : String) (md : Option MD) :
    Except String AnalyzeOut :=
  let got := get_transcript_artifact st mid chunks md
  let artifact := got.1
  let st1 := got.2
  match alistGet st1.analysisCache mid with
  | some cached =>
    if cached.chunkCount = artifact.chunkCount then
      Except.ok { payload := cached.payload, state := st1, effects := [], waits := [] }
    else computeAnalysis cfg env st1 mid chunks fullText artifact
  | none => computeAnalysis cfg env st1 mid chunks fullText artifact

/-- Translation of `MeetingOrchestrator.process_audio_chunk` (lines 32-41):
a failed or empty transcription is replaced by the placeholder text, and
sentiment is tracked on whatever text results. -/
def process_audio_chunk (env : Env) (audioData : Audio) (speakerName : String) : Json :=
  let tr := env.transcribe audioData
  let transcription := if !tr.1 || tr.2 = "" then "[Transcription failed]" else tr.2
  Json.obj
    [("transcription", Json.str transcription),
     ("sentiment", env.trackSentiment speakerName transcription)]

/-- Translation of `MeetingOrchestrator.process_text_chunk` (lines 43-44). -/
def process_text_chunk (env : Env) (speakerName text : String) : Json :=
  env.trackSentiment speakerName text

/-- Translation of `MeetingOrchestrator.query_topic` (lines 46-47). -/
def query_topic (chunks : List Chunk) (topic : String) : List Chunk :=
  query_by_topic chunks topic

/-- Looking up the key just inserted returns the inserted value. -/
theorem alistGet_alistInsert_self {α β : Type} [DecidableEq α]
    (l : List (α × β)) (k : α) (v : β) :
    alistGet (alistInsert l k v) k = some v := by
  induction l with
  | nil => simp [alistInsert, alistGet]
  | cons p rest ih =>
    obtain ⟨k', v'⟩ := p
    by_cases h : k' = k
    · simp [alistInsert, alistGet, h]
    · simp [alistInsert, alistGet, h, ih]

/-- Dropping a whitespace prefix twice is the same as dropping it once. -/
theorem dropWhile_isPyWs_idem (l : List Char) :
    List.dropWhile isPyWs (List.dropWhile isPyWs l) = List.dropWhile isPyWs l := by
  induction l with
  | nil => rfl
  | cons x xs ih =>
    cases h : isPyWs x
    · simp [List.dropWhile_cons, h]
    · simp [List.dropWhile_cons, h, ih]

/-- One-step unfolding of `dropEndWs` on a cons cell. -/
theorem dropEndWs_cons (c : Char) (cs : List Char) :
    dropEndWs (c :: cs) =
      match dropEndWs cs with
      | [] => if isPyWs c then [] else [c]
      | r => c :: r := rfl

/-- Dropping a whitespace suffix twice is the same as dropping it once. -/
theorem dropEndWs_idem (l : List Char) : dropEndWs (dropEndWs l) = dropEndWs l := by
  induction l with
  | nil => rfl
  | cons c cs ih =>
    cases h : dropEndWs cs with
    | nil =>
      have h0 : dropEndWs ([] : List Char) = [] := rfl
      cases hws : isPyWs c
      · simp [dropEndWs_cons, h, hws, h0]
      · simp [dropEndWs_cons, h, hws, h0]
    | cons r rs =>
      have h2 : dropEndWs (r :: rs) = r :: rs := by rw [← h, ih, h]
      have h3 : dropEndWs (c :: cs) = c :: r :: rs := by rw [dropEndWs_cons, h]
      rw [h3, dropEndWs_cons, h2]

/-- The head surviving `dropWhile isPyWs` is not whitespace. -/
theorem dropWhile_head_false (l : List Char) (c : Char) (r : List Char)
    (h : List.dropWhile isPyWs l = c :: r) : isPyWs c = false := by
  induction l with
  | nil => simp at h
  | cons x xs ih =>
    rw [List.dropWhile_cons] at h
    by_cases hx : isPyWs x = true
    · exact ih (by simpa [hx] using h)
    · rw [if_neg hx] at h
      cases h
      simpa using hx

/-- `dropEndWs` keeps the head of a non-empty list or empties it. -/
theorem dropEndWs_cons_shape (c : Char) (cs : List Char) :
    dropEndWs (c :: cs) = [] ∨ ∃ t, dropEndWs (c :: cs) = c :: t := by
  cases h : dropEndWs cs with
  | nil =>
    cases hws : isPyWs c
    · right; exact ⟨[], by simp [dropEndWs, h, hws]⟩
    · left; simp [dropEndWs, h, hws]
  | cons r rs => right; exact ⟨r :: rs, by simp [dropEndWs, h]⟩

/-- After a left strip, removing trailing whitespace leaves nothing new to
strip on the left. -/
theorem dropWhile_dropEndWs_dropWhile (l : List Char) :
    List.dropWhile isPyWs (dropEndWs (List.dropWhile isPyWs l)) =
      dropEndWs (List.dropWhile isPyWs l) := by
  cases h : List.dropWhile isPyWs l with
  | nil => rfl
  | cons c cs =>
    have hc : isPyWs c = false := dropWhile_head_false l c cs h
    rcases dropEndWs_cons_shape c cs with h2 | ⟨t, h2⟩
    · rw [h2]; rfl
    · rw [h2, List.dropWhile_cons, hc]; simp

/-- Python `strip` is idempotent (character-list version). -/
theorem stripChars_idem (l : List Char) : stripChars (stripChars l) = stripChars l := by
  unfold stripChars
  rw [dropWhile_dropEndWs_dropWhile, dropEndWs_idem]

/-- Python `strip` is idempotent. -/
theorem pyStrip_pyStrip (s : String) : pyStrip (pyStrip s) = pyStrip s :=
  congrArg String.mk (stripChars_idem s.toList)

/-- Every element produced by `extract_list` is already stripped and
non-empty. -/
theorem extract_list_mem (o : List (String × Json)) (k p : String)
    (hp : p ∈ extract_list o k) : pyStrip p = p ∧ p ≠ "" := by
  unfold extract_list at hp
  cases halist : alistGet o k with
  | none => rw [halist] at hp; simp at hp
  | some j =>
    rw [halist] at hp
    cases j with
    | arr items =>
      simp only [List.mem_filter, List.mem_map] at hp
      obtain ⟨⟨a, _, ha⟩, hne⟩ := hp
      subst ha
      exact ⟨pyStrip_pyStrip (pyStr a), by simpa using hne⟩
    | null => simp at hp
    | bool b => simp at hp
    | num n => simp at hp
    | str s => simp at hp
    | obj fs => simp at hp

/-- The code-point order on character lists is total. -/
theorem strLeb_total (a : List Char) : ∀ b, strLeb a b = true ∨ strLeb b a = true := by
  induction a with
  | nil => intro b; left; rfl
  | cons x xs ih =>
    intro b
    cases b with
    | nil => right; rfl
    | cons y ys =>
      rcases Nat.lt_trichotomy x.toNat y.toNat with h | h | h
      · left; simp [strLeb, h]
      · have hxy : ¬ x.toNat < y.toNat := by omega
        have hyx : ¬ y.toNat < x.toNat := by omega
        rcases ih ys with h2 | h2
        · left; simp [strLeb, hxy, hyx, h2]
        · right; simp [strLeb, hxy, hyx, h2]
      · right; simp [strLeb, h]

/-- Characterization of the code-point order on cons cells. -/
theorem strLeb_cons_iff (x y : Char) (xs ys : List Char) :
    strLeb (x :: xs) (y :: ys) = true ↔
      (x.toNat < y.toNat ∨ (x.toNat = y.toNat ∧ strLeb xs ys = true)) := by
  by_cases h1 : x.toNat < y.toNat
  · simp [strLeb, h1]
  · by_cases h2 : y.toNat < x.toNat
    · simp only [strLeb, if_neg h1, if_pos h2]
      constructor
      · intro hfalse; cases hfalse
      · intro hor
        rcases hor with h | ⟨he, _⟩
        · omega
        · omega
    · have he : x.toNat = y.toNat := by omega
      simp [strLeb, h1, h2, he]

/-- The code-point order on character lists is transitive. -/
theorem strLeb_trans (a : List Char) :
    ∀ b c, strLeb a b = true → strLeb b c = true → strLeb a c = true := by
  induction a with
  | nil => intro b c _ _; rfl
  | cons x xs ih =>
    intro b c h1 h2
    cases b with
    | nil => simp [strLeb] at h1
    | cons y ys =>
      cases c with
      | nil => simp [strLeb] at h2
      | cons z zs =>
        rw [strLeb_cons_iff] at h1 h2 ⊢
        rcases h1 with h1a | ⟨h1e, h1r⟩
        · rcases h2 with h2a | ⟨h2e, _⟩
          · left; omega
          · left; omega
        · rcases h2 with h2a | ⟨h2e, h2r⟩
          · left; omega
          · right; exact ⟨by omega, ih ys zs h1r h2r⟩

instance : IsTotal String pyLe := ⟨fun a b => strLeb_total a.toList b.toList⟩

instance : IsTrans String pyLe := ⟨fun a b c => strLeb_trans a.toList b.toList c.toList⟩

/-- Membership in `sortStrings` is membership in the input. -/
theorem mem_sortStrings (l : List String) (a : String) :
    a ∈ sortStrings l ↔ a ∈ l :=
  (List.perm_insertionSort pyLe l).mem_iff

/-- The artifact returned by `_get_transcript_artifact` always carries the
live chunk count. -/
theorem gta_chunkCount (st : OrchState) (mid : String) (chunks : List Chunk)
    (md : Option MD) :
    (get_transcript_artifact st mid chunks md).1.chunkCount = chunks.length := by
  unfold get_transcript_artifact
  cases h : alistGet st.transcriptCache mid with
  | none => simp [buildTranscriptArtifact]
  | some a =>
    by_cases hc : a.chunkCount = chunks.length
    · simp [hc]
    · simp [hc, buildTranscriptArtifact]

/-- `_get_transcript_artifact` leaves the analysis cache untouched. -/
theorem gta_analysisCache (st : OrchState) (mid : String) (chunks : List Chunk)
    (md : Option MD) :
    (get_transcript_artifact st mid chunks md).2.analysisCache = st.analysisCache := by
  unfold get_transcript_artifact
  cases h : alistGet st.transcriptCache mid with
  | none => rfl
  | some a =>
    by_cases hc : a.chunkCount = chunks.length
    · simp [hc]
    · simp [hc]

/-- `_get_transcript_artifact` leaves the QA cache untouched. -/
theorem gta_qaCache (st : OrchState) (mid : String) (chunks : List Chunk)
    (md : Option MD) :
    (get_transcript_artifact st mid chunks md).2.qaCache = st.qaCache := by
  unfold get_transcript_artifact
  cases h : alistGet st.transcriptCache mid with
  | none => rfl
  | some a =>
    by_cases hc : a.chunkCount = chunks.length
    · simp [hc]
    · simp [hc]

/-- After `_get_transcript_artifact`, the transcript cache holds the
returned artifact under the meeting id. -/
theorem gta_cache_self (st : OrchState) (mid : String) (chunks : List Chunk)
    (md : Option MD) :
    alistGet (get_transcript_artifact st mid chunks md).2.transcriptCache mid =
      some (get_transcript_artifact st mid chunks md).1 := by
  unfold get_transcript_artifact
  cases h : alistGet st.transcriptCache mid with
  | none => simpa using alistGet_alistInsert_self st.transcriptCache mid _
  | some a =>
    by_cases hc : a.chunkCount = chunks.length
    · simpa [hc] using h
    · simpa [hc] using alistGet_alistInsert_self st.transcriptCache mid _

/-- A cached artifact with a matching chunk count is served as-is. -/
theorem gta_cached (st : OrchState) (mid : String) (chunks : List Chunk)
    (md : Option MD) (a : Artifact)
    (h : alistGet st.transcriptCache mid = some a)
    (hc : a.chunkCount = chunks.length) :
    get_transcript_artifact st mid chunks md = (a, st) := by
  unfold get_transcript_artifact
  simp [h, hc]

/-- On a point with non-empty strip, the code's merge step equals the
spec-worded merge step. -/
theorem mergeStep_eq_specStep (acc : List String) (q : String)
    (hq : pyStrip q ≠ "") : mergeStep acc q = mergeSpecStep acc q := by
  unfold mergeStep mergeSpecStep
  by_cases hm : pyStrip q ∈ acc
  · simp [hm]
  · simp [hm, hq]

/-- Fold version of `mergeStep_eq_specStep`. -/
theorem foldl_merge_eq (pts : List String) :
    ∀ acc, (∀ p ∈ pts, pyStrip p ≠ "") →
      pts.foldl mergeStep acc = pts.foldl mergeSpecStep acc := by
  induction pts with
  | nil => intro acc _; rfl
  | cons q qs ih =>
    intro acc h
    simp only [List.foldl_cons]
    rw [mergeStep_eq_specStep acc q (h q (by simp))]
    exact ih _ (fun p hp => h p (by simp [hp]))

/-- One merge step keeps the head of a non-empty accumulator. -/
theorem mergeStep_head (acc : List String) (q : String) (h : acc ≠ []) :
    (mergeStep acc q).head? = acc.head? ∧ mergeStep acc q ≠ [] := by
  have hstep : mergeStep acc q = acc ++ [pyStrip q] ∨ mergeStep acc q = acc := by
    unfold mergeStep
    by_cases hc : pyStrip q ≠ "" ∧ pyStrip q ∉ acc
    · left; simp [hc]
    · right; simp [hc]
  rcases hstep with h2 | h2
  · rw [h2]; exact ⟨List.head?_append_of_ne_nil _ h, by simp⟩
  · rw [h2]; exact ⟨rfl, h⟩

/-- The merge fold keeps the head of a non-empty accumulator. -/
theorem foldl_merge_head (pts : List String) :
    ∀ acc, acc ≠ [] → (pts.foldl mergeStep acc).head? = acc.head? := by
  induction pts with
  | nil => intro acc _; rfl
  | cons q qs ih =>
    intro acc h
    simp only [List.foldl_cons]
    obtain ⟨h1, h2⟩ := mergeStep_head acc q h
    rw [ih _ h2, h1]

/-- C8: the merged key_points list of the analysis payload starts with the
summary text as its first element when the summary is non-empty, followed
by each trimmed key point not already string-equal to an element of the
list so far, first occurrence winning: on every point list whose elements
strip to something non-empty - which is exactly what `_extract_list`, the
producer of all key-point lists during analysis, guarantees - the code's
merge loop coincides with the claim's merge policy, and the summary is the
head whenever it is non-empty. -/
theorem claim_C8 :
    (∀ (summary : String) (pts : List String), (∀ p ∈ pts, pyStrip p ≠ "") →
        mergedPoints summary pts = mergeSpecPoints summary pts) ∧
    (∀ (summary : String) (o : List (String × Json)) (key : String),
        mergedPoints summary (extract_list o key) =
          mergeSpecPoints summary (extract_list o key)) ∧
    (∀ (summary : String) (pts : List String), summary ≠ "" →
        (mergedPoints summary pts).head? = some summary) := by
  refine ⟨?_, ?_, ?_⟩
  · intro summary pts h
    exact foldl_merge_eq pts _ h
  · intro summary o key
    refine foldl_merge_eq _ _ (fun p hp => ?_)
    obtain ⟨h1, h2⟩ := extract_list_mem o key p hp
    rw [h1]; exact h2
  · intro summary pts h
    unfold mergedPoints
    rw [foldl_merge_head pts _ (by simp [h])]
    simp [h]

/-- Closed instantiation of `claim_C8` at a concrete summary and point
list. -/
theorem claim_C8_witness :
    mergedPoints "Overview." [" a ", "a", "b"] =
        mergeSpecPoints "Overview." [" a ", "a", "b"] ∧
      (mergedPoints "Overview." [" a ", "a", "b"]).head? = some "Overview." :=
  ⟨claim_C8.1 "Overview." [" a ", "a", "b"] (by decide),
   claim_C8.2.2 "Overview." [" a ", "a", "b"] (by decide)⟩

/-- Default configuration of a freshly constructed orchestrator (no
overriding attributes exist on the repository's `config` object). -/
def cfg0 : Cfg := {}

/-- A well-formed chunk used in concrete scenarios. -/
def chunkA : Chunk := { speaker := some "Alice", text := some "Budget approved." }

/-- Environment in which both LLM paths yield prose that is not JSON:
the langchain text and the raw `call_llm` result carry no brace-delimited
object, so every parsing step of the invoker fails. -/
def envChainProse : Env :=
  { langchainResponse := fun _ _ _ _ => some "not json at all",
    callLlm := fun _ _ => Json.str "not json at all" }

/-- C1: the JSON-recovery parser of the bounded LLM invoker returns a dict
unchanged, parses a string strictly first, then falls back to the
first-brace-to-last-brace substring; the concrete malformed output
`Sure! ...42... thanks` recovers the inner object, plain prose recovers
nothing, and when every step fails the invoker `_run_json_chain` returns
the empty mapping instead of raising (it is a total function here because
every Python failure path is caught in the source). -/
theorem claim_C1 :
    (∀ o : List (String × Json), parse_json (PyVal.dict o) = some o) ∧
    (∀ (s : String) (o : List (String × Json)),
        jsonLoads (pyStrip s) = some (Json.obj o) →
        parse_json (PyVal.str s) = some o) ∧
    (∀ (s sub : String) (o : List (String × Json)),
        jsonLoads (pyStrip s) = none → braceSlice (pyStrip s) = some sub →
        jsonLoads sub = some (Json.obj o) → parse_json (PyVal.str s) = some o) ∧
    parse_json (PyVal.str "Sure! \x7b\"answer\": \"42\"\x7d thanks") =
      some [("answer", Json.str "42")] ∧
    parse_json (PyVal.str "not json at all") = none ∧
    run_json_chain cfg0 envChainProse "sys" "ctx" (some "question") none = [] := by
  refine ⟨fun o => rfl, ?_, ?_, rfl, rfl, rfl⟩
  · intro s o h
    by_cases he : pyStrip s = ""
    · rw [he] at h
      exact absurd h (by simp [jsonLoads, skipWs, parseVal])
    · simp [parse_json, he, h]
  · intro s sub o h1 h2 h3
    by_cases he : pyStrip s = ""
    · rw [he, show braceSlice "" = (none : Option String) from rfl] at h2
      exact absurd h2 (by simp)
    · simp [parse_json, he, h1, h2, h3]

/-- Closed instantiation of `claim_C1` at strings exercising the strict
path and the brace-scan path. -/
theorem claim_C1_witness :
    parse_json (PyVal.str " \x7b\"a\": 1\x7d ") = some [("a", Json.num 1)] ∧
    parse_json (PyVal.str "x \x7b\"b\": 2\x7d y") = some [("b", Json.num 2)] :=
  ⟨claim_C1.2.1 " \x7b\"a\": 1\x7d " [("a", Json.num 1)] rfl,
   claim_C1.2.2.1 "x \x7b\"b\": 2\x7d y" "\x7b\"b\": 2\x7d" [("b", Json.num 2)] rfl rfl rfl⟩

/-- C4: with an empty chunk list, `ask_question` and `semantic_query`
short-circuit to a fixed message chosen by the meeting status - the
no-audio explanation when the metadata status is `no_audio`, the
no-transcript message otherwise - with no LLM invocation, and
`semantic_query` additionally returns an empty relevant-chunks list. -/
theorem claim_C4 :
    ∀ (cfg : Cfg) (env : Env) (st : OrchState) (mid : String) (q : Option String)
      (md : Option MD),
      (mdNoAudio md = true →
        (ask_question cfg env st mid [] q md).answer =
          "I didn’t receive any audio input for this meeting, so I can’t provide any details." ∧
        (semantic_query cfg env st mid [] q md).answer =
          "I didn’t receive any audio input for this meeting, so I can’t answer questions about the discussion.") ∧
      (mdNoAudio md = false →
        (ask_question cfg env st mid [] q md).answer =
          "No transcript yet. You can still ask questions." ∧
        (semantic_query cfg env st mid [] q md).answer =
          "No transcript yet. You can still ask questions.") ∧
      (semantic_query cfg env st mid [] q md).relevantChunks = [] ∧
      (ask_question cfg env st mid [] q md).effects = [] ∧
      (semantic_query cfg env st mid [] q md).effects = [] := by
  intro cfg env st mid q md
  refine ⟨fun h => ?_, fun h => ?_, ?_, ?_, ?_⟩
  · constructor
    · simp [ask_question, h]
    · simp [semantic_query, h]
  · constructor
    · simp [ask_question, h]
    · simp [semantic_query, h]
  · cases h : mdNoAudio md
    · simp [semantic_query, h]
    · simp [semantic_query, h]
  · cases h : mdNoAudio md
    · simp [ask_question, h]
    · simp [ask_question, h]
  · cases h : mdNoAudio md
    · simp [semantic_query, h]
    · simp [semantic_query, h]

/-- Closed instantiation of `claim_C4`: a meeting with zero chunks and
status `no_audio` gets the fixed no-audio message from `ask_question`. -/
theorem claim_C4_witness :
    (ask_question cfg0 {} emptyState "m" [] none
        (some [("status", Json.str "no_audio")])).answer =
      "I didn’t receive any audio input for this meeting, so I can’t provide any details." :=
  ((claim_C4 cfg0 {} emptyState "m" none (some [("status", Json.str "no_audio")])).1
    (by decide)).1

/-- C10: with a non-empty chunk list and a missing, empty, or
whitespace-only question, `ask_question` returns the artifact's full
transcript text, performs no LLM call, and leaves the QA cache untouched -
the empty-query short-circuit applies to `ask_question` too. -/
theorem claim_C10 :
    ∀ (cfg : Cfg) (env : Env) (st : OrchState) (mid : String) (chunks : List Chunk)
      (q : Option String) (md : Option MD),
      chunks ≠ [] → pyStrip (q.getD "") = "" →
      (ask_question cfg env st mid chunks q md).answer =
        (get_transcript_artifact st mid chunks md).1.transcriptText ∧
      (ask_question cfg env st mid chunks q md).effects = [] ∧
      (ask_question cfg env st mid chunks q md).state.qaCache = st.qaCache := by
  intro cfg env st mid chunks q md hne hq
  have hempty : chunks.isEmpty = false := by
    cases chunks with
    | nil => exact absurd rfl hne
    | cons c cs => rfl
  refine ⟨?_, ?_, ?_⟩
  · simp [ask_question, hempty, hq]
  · simp [ask_question, hempty, hq]
  · simp [ask_question, hempty, hq, gta_qaCache]

/-- Closed instantiation of `claim_C10` at a whitespace-only question. -/
theorem claim_C10_witness :
    (ask_question cfg0 {} emptyState "m" [chunkA] (some "   ") none).answer =
      (get_transcript_artifact emptyState "m" [chunkA] none).1.transcriptText ∧
    (ask_question cfg0 {} emptyState "m" [chunkA] (some "   ") none).state.qaCache = [] :=
  ⟨(claim_C10 cfg0 {} emptyState "m" [chunkA] (some "   ") none
      (List.cons_ne_nil _ _) (by decide)).1,
   (claim_C10 cfg0 {} emptyState "m" [chunkA] (some "   ") none
      (List.cons_ne_nil _ _) (by decide)).2.2⟩

/-- A chunk missing its text key, whose speaker nevertheless must be
listed. -/
def chunkBob : Chunk := { speaker := some "Bob" }

/-- C9: the speakers list of the transcript artifact is computed over all
chunks, including chunks whose stripped text is empty: every chunk's
normalized speaker appears in the sorted speakers list, `speaker_count` is
its length, and when every chunk strips to empty text the transcript text
is the status-aware placeholder while the speakers list is still non-empty
for a non-empty chunk list. -/
theorem claim_C9 :
    ∀ (mid : String) (chunks : List Chunk) (md : Option MD),
      (∀ c ∈ chunks, chunkSpeaker c ∈ (buildTranscriptArtifact mid chunks md).speakers) ∧
      List.Sorted pyLe (buildTranscriptArtifact mid chunks md).speakers ∧
      alistGet
          (metadataPayloadOf mid chunks.length
            (buildTranscriptArtifact mid chunks md).speakers none)
          "speaker_count" =
        some (Json.num (buildTranscriptArtifact mid chunks md).speakers.length) ∧
      ((∀ c ∈ chunks, pyStrip (c.text.getD "") = "") →
        (buildTranscriptArtifact mid chunks md).transcriptText =
          (if mdNoAudio md then "No audio was detected in this meeting."
           else "No transcript data available yet.") ∧
        (chunks ≠ [] → (buildTranscriptArtifact mid chunks md).speakers ≠ [])) := by
  intro mid chunks md
  have hspeakers : (buildTranscriptArtifact mid chunks md).speakers =
      sortStrings (chunks.map chunkSpeaker).dedup := rfl
  have hmem : ∀ c ∈ chunks, chunkSpeaker c ∈ (buildTranscriptArtifact mid chunks md).speakers := by
    intro c hc
    rw [hspeakers, mem_sortStrings, List.mem_dedup]
    exact List.mem_map_of_mem chunkSpeaker hc
  refine ⟨hmem, ?_, ?_, ?_⟩
  · rw [hspeakers]
    exact List.sorted_insertionSort pyLe _
  · simp [metadataPayloadOf, alistGet]
  · intro htext
    have hlines : chunks.filterMap renderLine = [] :=
      List.filterMap_eq_nil_iff.mpr (fun c hc => by simp [renderLine, htext c hc])
    constructor
    · have hform : (buildTranscriptArtifact mid chunks md).transcriptText =
          (if pyStrip (String.intercalate "\n" (chunks.filterMap renderLine)) = "" then
            (if mdNoAudio md then "No audio was detected in this meeting."
             else "No transcript data available yet.")
           else pyStrip (String.intercalate "\n" (chunks.filterMap renderLine))) := rfl
      rw [hform, hlines]
      rfl
    · intro hne
      cases chunks with
      | nil => exact absurd rfl hne
      | cons c cs =>
        exact List.ne_nil_of_mem (hmem c (by simp))

/-- The final answer is never the empty string. -/
theorem finalAnswer_ne (v : String) : finalAnswer v ≠ "" := by
  unfold finalAnswer
  split
  · decide
  · assumption

/-- The miss-path answer of `ask_question` is never empty. -/
theorem askProduce_ne (cfg : Cfg) (env : Env) (artifact : Artifact)
    (chunks : List Chunk) (qv : String) :
    (askProduce cfg env artifact chunks qv).1 ≠ "" :=
  finalAnswer_ne _

/-- The miss-path answer of `semantic_query` is never empty. -/
theorem semProduce_ne (cfg : Cfg) (env : Env) (artifact : Artifact)
    (chunks : List Chunk) (qv : String) :
    (semProduce cfg env artifact chunks qv).1 ≠ "" :=
  finalAnswer_ne _

/-- C3: `ask_question` and `semantic_query` key their cache on
(operation kind, meeting id, chunk count, lowercased stripped query); a
hit returns the cached answer (and, for the semantic variant, the cached
relevant chunks) with no LLM invocation and no cache write; a miss stores
the produced answer - always non-empty, the fixed no-detail fallback
included - under that key before returning it (the semantic variant also
stores the relevant chunks). -/
theorem claim_C3 :
    (∀ (cfg : Cfg) (env : Env) (st : OrchState) (mid : String) (chunks : List Chunk)
        (q : String) (md : Option MD) (e : QAEntry),
        chunks ≠ [] → pyStrip q ≠ "" →
        alistGet st.qaCache ("ask", mid, chunks.length, pyLower (pyStrip q)) = some e →
        (ask_question cfg env st mid chunks (some q) md).answer = e.answer ∧
        (ask_question cfg env st mid chunks (some q) md).effects = [] ∧
        (ask_question cfg env st mid chunks (some q) md).state.qaCache = st.qaCache) ∧
    (∀ (cfg : Cfg) (env : Env) (st : OrchState) (mid : String) (chunks : List Chunk)
        (q : String) (md : Option MD),
        chunks ≠ [] → pyStrip q ≠ "" →
        alistGet st.qaCache ("ask", mid, chunks.length, pyLower (pyStrip q)) = none →
        alistGet (ask_question cfg env st mid chunks (some q) md).state.qaCache
            ("ask", mid, chunks.length, pyLower (pyStrip q)) =
          some { answer := (ask_question cfg env st mid chunks (some q) md).answer } ∧
        (ask_question cfg env st mid chunks (some q) md).answer ≠ "") ∧
    (∀ (cfg : Cfg) (env : Env) (st : OrchState) (mid : String) (chunks : List Chunk)
        (q : String) (md : Option MD) (e : QAEntry),
        chunks ≠ [] → pyStrip q ≠ "" →
        alistGet st.qaCache ("semantic", mid, chunks.length, pyLower (pyStrip q)) = some e →
        (semantic_query cfg env st mid chunks (some q) md).answer = e.answer ∧
        (semantic_query cfg env st mid chunks (some q) md).relevantChunks =
          e.relevantChunks.getD [] ∧
        (semantic_query cfg env st mid chunks (some q) md).effects = [] ∧
        (semantic_query cfg env st mid chunks (some q) md).state.qaCache = st.qaCache) ∧
    (∀ (cfg : Cfg) (env : Env) (st : OrchState) (mid : String) (chunks : List Chunk)
        (q : String) (md : Option MD),
        chunks ≠ [] → pyStrip q ≠ "" →
        alistGet st.qaCache ("semantic", mid, chunks.length, pyLower (pyStrip q)) = none →
        alistGet (semantic_query cfg env st mid chunks (some q) md).state.qaCache
            ("semantic", mid, chunks.length, pyLower (pyStrip q)) =
          some { answer := (semantic_query cfg env st mid chunks (some q) md).answer,
                 relevantChunks :=
                   some (semantic_query cfg env st mid chunks (some q) md).relevantChunks } ∧
        (semantic_query cfg env st mid chunks (some q) md).answer ≠ "") := by
  have hempty : ∀ chunks : List Chunk, chunks ≠ [] → chunks.isEmpty = false := by
    intro chunks h
    cases chunks with
    | nil => exact absurd rfl h
    | cons c cs => rfl
  refine ⟨?_, ?_, ?_, ?_⟩
  · intro cfg env st mid chunks q md e hne hq hhit
    refine ⟨?_, ?_, ?_⟩ <;>
      simp [ask_question, hempty chunks hne, hq, gta_qaCache, gta_chunkCount, hhit]
  · intro cfg env st mid chunks q md hne hq hmiss
    constructor
    · simp [ask_question, hempty chunks hne, hq, gta_qaCache, gta_chunkCount, hmiss,
        alistGet_alistInsert_self]
    · simp only [ask_question, hempty chunks hne, hq, gta_qaCache, gta_chunkCount, hmiss]
      simp [hempty chunks hne, hq, gta_qaCache, gta_chunkCount, hmiss]
      exact askProduce_ne cfg env _ chunks (pyStrip q)
  · intro cfg env st mid chunks q md e hne hq hhit
    refine ⟨?_, ?_, ?_, ?_⟩ <;>
      simp [semantic_query, hempty chunks hne, hq, gta_qaCache, gta_chunkCount, hhit]
  · intro cfg env st mid chunks q md hne hq hmiss
    constructor
    · simp [semantic_query, hempty chunks hne, hq, gta_qaCache, gta_chunkCount, hmiss,
        alistGet_alistInsert_self]
    · simp only [semantic_query, hempty chunks hne, hq, gta_qaCache, gta_chunkCount, hmiss]
      simp [hempty chunks hne, hq, gta_qaCache, gta_chunkCount, hmiss]
      exact semProduce_ne cfg env _ chunks (pyStrip q)

/-- A state whose QA cache already holds an answer for the normalized key
of the question asked in `claim_C3_witness`. -/
def stHit : OrchState :=
  { qaCache := [(("ask", "m", 1, "budget?"), { answer := "Cached." })] }

/-- Closed instantiation of `claim_C3`: a differently-spaced and
differently-cased repetition of a cached question hits the cache, and a
fresh question's produced answer is stored under its normalized key. -/
theorem claim_C3_witness :
    (ask_question cfg0 {} stHit "m" [chunkA] (some "  Budget? ") none).answer = "Cached." ∧
    alistGet (ask_question cfg0 {} emptyState "m" [chunkA] (some "q") none).state.qaCache
        ("ask", "m", 1, "q") =
      some { answer := (ask_question cfg0 {} emptyState "m" [chunkA] (some "q") none).answer } :=
  ⟨(claim_C3.1 cfg0 {} stHit "m" [chunkA] "  Budget? " none { answer := "Cached." }
      (List.cons_ne_nil _ _) (by decide) rfl).1,
   (claim_C3.2.1 cfg0 {} emptyState "m" [chunkA] "q" none
      (List.cons_ne_nil _ _) (by decide) rfl).1⟩

/-- On success, `computeAnalysis` stores its payload in the analysis cache
under the meeting id at the artifact's chunk count, touching nothing
else. -/
theorem computeAnalysis_ok_state (cfg : Cfg) (env : Env) (st1 : OrchState)
    (mid : String) (chunks : List Chunk) (ft : String) (artifact : Artifact)
    (out : AnalyzeOut)
    (h : computeAnalysis cfg env st1 mid chunks ft artifact = Except.ok out) :
    out.state = { st1 with
      analysisCache := alistInsert st1.analysisCache mid
        { chunkCount := artifact.chunkCount, payload := out.payload } } := by
  unfold computeAnalysis at h
  cases hs : summarize_with_sentiment cfg env chunks artifact with
  | error e => rw [hs] at h; exact absurd h (by simp)
  | ok step =>
    rw [hs] at h
    simp only [Except.ok.injEq] at h
    rw [← h]

/-- After a successful `analyze_meeting`, the analysis cache holds the
returned payload at the live chunk count, and the transcript cache is the
one produced by the artifact step. -/
theorem analyze_ok_props (cfg : Cfg) (env : Env) (st : OrchState) (mid : String)
    (chunks : List Chunk) (ft : String) (md : Option MD) (out : AnalyzeOut)
    (h : analyze_meeting cfg env st mid chunks ft md = Except.ok out) :
    alistGet out.state.analysisCache mid =
      some { chunkCount := chunks.length, payload := out.payload } ∧
    out.state.transcriptCache =
      (get_transcript_artifact st mid chunks md).2.transcriptCache := by
  unfold analyze_meeting at h
  dsimp only at h
  cases hm : alistGet (get_transcript_artifact st mid chunks md).2.analysisCache mid with
  | some e =>
    rw [hm] at h
    dsimp only at h
    by_cases hc : e.chunkCount = (get_transcript_artifact st mid chunks md).1.chunkCount
    · rw [if_pos hc] at h
      simp only [Except.ok.injEq] at h
      rw [← h]
      constructor
      · rw [hm]
        have he : e = { chunkCount := chunks.length, payload := e.payload } := by
          cases e with
          | mk cc p =>
            simp only [AnalysisEntry.mk.injEq]
            exact ⟨by simpa [gta_chunkCount] using hc, trivial⟩
        rw [← he]
      · rfl
    · rw [if_neg hc] at h
      have hstate := computeAnalysis_ok_state cfg env _ mid chunks ft _ out h
      rw [hstate]
      refine ⟨?_, rfl⟩
      simpa [gta_chunkCount] using
        alistGet_alistInsert_self (get_transcript_artifact st mid chunks md).2.analysisCache mid
          { chunkCount := (get_transcript_artifact st mid chunks md).1.chunkCount,
            payload := out.payload }
  | none =>
    rw [hm] at h
    dsimp only at h
    have hstate := computeAnalysis_ok_state cfg env _ mid chunks ft _ out h
    rw [hstate]
    refine ⟨?_, rfl⟩
    simpa [gta_chunkCount] using
      alistGet_alistInsert_self (get_transcript_artifact st mid chunks md).2.analysisCache mid
        { chunkCount := (get_transcript_artifact st mid chunks md).1.chunkCount,
          payload := out.payload }

/-- C2: calling `analyze_meeting` a second time with the chunk count
unchanged returns the identical payload with no downstream work - no
decision or action-item extraction, no summarization and no refinement LLM
call (its effect trace is empty); conversely a cached entry whose chunk
count differs from the live one is ignored, the full analysis is
recomputed, and the recomputed payload replaces the cache entry at the new
chunk count. -/
theorem claim_C2 :
    (∀ (cfg : Cfg) (env1 env2 : Env) (st : OrchState) (mid : String)
        (chunks chunks2 : List Chunk) (ft ft2 : String) (md md2 : Option MD)
        (out : AnalyzeOut),
        analyze_meeting cfg env1 st mid chunks ft md = Except.ok out →
        chunks2.length = chunks.length →
        analyze_meeting cfg env2 out.state mid chunks2 ft2 md2 =
          Except.ok { payload := out.payload, state := out.state,
                      effects := [], waits := [] }) ∧
    (∀ (cfg : Cfg) (env : Env) (st : OrchState) (mid : String) (chunks : List Chunk)
        (ft : String) (md : Option MD) (e : AnalysisEntry),
        alistGet st.analysisCache mid = some e → e.chunkCount ≠ chunks.length →
        analyze_meeting cfg env st mid chunks ft md =
          computeAnalysis cfg env (get_transcript_artifact st mid chunks md).2 mid chunks ft
            (get_transcript_artifact st mid chunks md).1 ∧
        (∀ out, analyze_meeting cfg env st mid chunks ft md = Except.ok out →
          alistGet out.state.analysisCache mid =
            some { chunkCount := chunks.length, payload := out.payload })) := by
  constructor
  · intro cfg env1 env2 st mid chunks chunks2 ft ft2 md md2 out h1 hlen
    obtain ⟨hcache, htc⟩ := analyze_ok_props cfg env1 st mid chunks ft md out h1
    have hart : alistGet out.state.transcriptCache mid =
        some (get_transcript_artifact st mid chunks md).1 := by
      rw [htc]; exact gta_cache_self st mid chunks md
    have hcc : (get_transcript_artifact st mid chunks md).1.chunkCount = chunks2.length := by
      rw [gta_chunkCount]; exact hlen.symm
    have hg2 : get_transcript_artifact out.state mid chunks2 md2 =
        ((get_transcript_artifact st mid chunks md).1, out.state) :=
      gta_cached out.state mid chunks2 md2 _ hart hcc
    simp [analyze_meeting, hg2, hcache, hcc, hlen]
  · intro cfg env st mid chunks ft md e he hne
    have h1 : alistGet (get_transcript_artifact st mid chunks md).2.analysisCache mid =
        some e := by
      rw [gta_analysisCache]; exact he
    constructor
    · simp [analyze_meeting, h1, hne, gta_chunkCount]
    · intro out hout
      exact (analyze_ok_props cfg env st mid chunks ft md out hout).1

/-- Placeholder output used only as the `getD` default below. -/
def dummyOut : AnalyzeOut :=
  { payload :=
      { meetingId := "", summary := "", keyPoints := [], decisions := [],
        actionItems := [], sentimentBreakdown := [], speakers := [] },
    state := emptyState, effects := [], waits := [] }

/-- The concrete result of a first `analyze_meeting` run on one chunk. -/
def analyzeOut1 : AnalyzeOut :=
  (analyze_meeting cfg0 {} emptyState "m" [chunkA] "note" none).toOption.getD dummyOut

/-- Closed instantiation of `claim_C2`: the second call on the unchanged
chunk count returns the first call's payload with an empty effect trace,
and a call with a bigger chunk list falls through to the recomputation. -/
theorem claim_C2_witness :
    analyze_meeting cfg0 {} analyzeOut1.state "m" [chunkA] "note" none =
      Except.ok { payload := analyzeOut1.payload, state := analyzeOut1.state,
                  effects := [], waits := [] } ∧
    analyze_meeting cfg0 {} analyzeOut1.state "m" [chunkA, chunkBob] "note" none =
      computeAnalysis cfg0 {}
        (get_transcript_artifact analyzeOut1.state "m" [chunkA, chunkBob] none).2 "m"
        [chunkA, chunkBob] "note"
        (get_transcript_artifact analyzeOut1.state "m" [chunkA, chunkBob] none).1 :=
  ⟨claim_C2.1 cfg0 {} {} emptyState "m" [chunkA] [chunkA] "note" "note" none none
      analyzeOut1 rfl rfl,
   (claim_C2.2 cfg0 {} analyzeOut1.state "m" [chunkA, chunkBob] "note" none
      { chunkCount := 1, payload := analyzeOut1.payload } rfl (by decide)).1⟩

/-- Closed instantiation of `claim_C9`: a speaker appearing only in a
chunk with no text still shows up in the speakers list while the
transcript text is the placeholder. -/
theorem claim_C9_witness :
    chunkSpeaker chunkBob ∈ (buildTranscriptArtifact "m" [chunkBob] none).speakers ∧
    (buildTranscriptArtifact "m" [chunkBob] none).transcriptText =
      "No transcript data available yet." ∧
    (buildTranscriptArtifact "m" [chunkBob] none).speakers ≠ [] :=
  ⟨(claim_C9 "m" [chunkBob] none).1 chunkBob (by simp),
   ((claim_C9 "m" [chunkBob] none).2.2.2 (by decide)).1,
   ((claim_C9 "m" [chunkBob] none).2.2.2 (by decide)).2 (List.cons_ne_nil _ _)⟩

/-- When every chunk carries both subscripted keys, the summarizer's line
rendering raises nothing. -/
theorem chunkLines_ok (chunks : List Chunk)
    (h : ∀ c ∈ chunks, c.speaker.isSome ∧ c.text.isSome) :
    ∃ lines, chunkLines chunks = Except.ok lines := by
  induction chunks with
  | nil => exact ⟨[], rfl⟩
  | cons c cs ih =>
    obtain ⟨hs, ht⟩ := h c (by simp)
    obtain ⟨s, hs'⟩ := Option.isSome_iff_exists.mp hs
    obtain ⟨t, ht'⟩ := Option.isSome_iff_exists.mp ht
    obtain ⟨rest, hrest⟩ := ih (fun d hd => h d (by simp [hd]))
    exact ⟨(s ++ ": " ++ t) :: rest, by simp [chunkLines, hs', ht', hrest]⟩

/-- `analyze_meeting` succeeds on every chunk list whose chunks carry
`speaker` and `text` keys - every other failure mode of its collaborators
is caught inside the collaborator. -/
theorem analyze_ok_of_keys (cfg : Cfg) (env : Env) (st : OrchState) (mid : String)
    (chunks : List Chunk) (ft : String) (md : Option MD)
    (h : ∀ c ∈ chunks, c.speaker.isSome ∧ c.text.isSome) :
    ∃ out, analyze_meeting cfg env st mid chunks ft md = Except.ok out := by
  obtain ⟨lines, hlines⟩ := chunkLines_ok chunks h
  have hsum : summarize env chunks "short" none =
      Except.ok (env.callLlm
        ("\nSummarize the meeting.\n\nSummary length: " ++ "short" ++ "\n" ++ "" ++
          "\n\nConversation:\n" ++ String.intercalate "\n" lines ++
          "\n\nReturn format:\n\x7b\n  \"summary\": \"string\",\n  \"key_points\": [\"point1\", \"point2\"]\n\x7d\n")
        "You summarize board meetings accurately.") := by
    unfold summarize
    rw [hlines]
  have hsws : ∃ r, summarize_with_sentiment cfg env chunks
      (get_transcript_artifact st mid chunks md).1 = Except.ok r := by
    unfold summarize_with_sentiment
    by_cases he : chunks.isEmpty
    · rw [if_pos he]
      exact ⟨_, rfl⟩
    · rw [if_neg he, hsum]
      exact ⟨_, rfl⟩
  obtain ⟨r, hr⟩ := hsws
  have hcomp : ∃ out, computeAnalysis cfg env (get_transcript_artifact st mid chunks md).2
      mid chunks ft (get_transcript_artifact st mid chunks md).1 = Except.ok out := by
    unfold computeAnalysis
    rw [hr]
    exact ⟨_, rfl⟩
  obtain ⟨out2, hout2⟩ := hcomp
  unfold analyze_meeting
  dsimp only
  cases hm : alistGet (get_transcript_artifact st mid chunks md).2.analysisCache mid with
  | some e =>
    by_cases hc : e.chunkCount = (get_transcript_artifact st mid chunks md).1.chunkCount
    · exact ⟨_, by dsimp only; rw [if_pos hc]⟩
    · exact ⟨out2, by dsimp only; rw [if_neg hc]; exact hout2⟩
  | none => exact ⟨out2, by dsimp only; exact hout2⟩

/-- Environment whose transcription collaborator reports failure. -/
def envFail : Env := { transcribe := fun _ => (false, "") }

/-- C5 (amended): restricted to chunk dicts that carry both the `speaker`
and `text` keys - which every chunk produced by the repository's API layer
does - no collaborator exception escapes `analyze_meeting`, and the other
public methods are total in the embedding because each of their
collaborators catches internally; a failed or empty transcription in
`process_audio_chunk` is replaced by the placeholder text with sentiment
still tracked on it. The restriction is forced: `summarizer.summarize`
subscripts `c['speaker']`/`c['text']` with no `try/except`, so the
unrestricted claim fails (see the counterexample). -/
theorem claim_C5 :
    (∀ (cfg : Cfg) (env : Env) (st : OrchState) (mid : String) (chunks : List Chunk)
        (ft : String) (md : Option MD),
        (∀ c ∈ chunks, c.speaker.isSome ∧ c.text.isSome) →
        (analyze_meeting cfg env st mid chunks ft md).isOk = true) ∧
    (∀ (env : Env) (audioData : Audio) (speakerName : String),
        (env.transcribe audioData).1 = false ∨ (env.transcribe audioData).2 = "" →
        process_audio_chunk env audioData speakerName =
          Json.obj [("transcription", Json.str "[Transcription failed]"),
                    ("sentiment", env.trackSentiment speakerName "[Transcription failed]")]) := by
  constructor
  · intro cfg env st mid chunks ft md h
    obtain ⟨out, hout⟩ := analyze_ok_of_keys cfg env st mid chunks ft md h
    rw [hout]
    rfl
  · intro env audioData speakerName h
    rcases h with h | h
    · simp [process_audio_chunk, h]
    · simp [process_audio_chunk, h]

/-- Closed instantiation of `claim_C5`. -/
theorem claim_C5_witness :
    (analyze_meeting cfg0 {} emptyState "m" [chunkA] "t" none).isOk = true ∧
    process_audio_chunk envFail [1] "Bob" =
      Json.obj [("transcription", Json.str "[Transcription failed]"),
                ("sentiment", Json.obj [])] :=
  ⟨claim_C5.1 cfg0 {} emptyState "m" [chunkA] "t" none (by decide),
   claim_C5.2 envFail [1] "Bob" (Or.inl rfl)⟩

/-- The claim as stated is false: a chunk dict without a `speaker` key
makes the summarizer collaborator raise `KeyError`, and `analyze_meeting`
propagates it. -/
theorem claim_C5_counterexample :
    analyze_meeting cfg0 {} emptyState "m" [({} : Chunk)] "" none =
      Except.error "KeyError: speaker" := rfl

/-- C6 (amended): `call_llm` is total - every failure path of the
subprocess call is caught - and on process failure, timeout, missing
binary, any other exception, and non-JSON stdout it returns the
`(error, raw_output)` dict of two strings; but on a zero exit code whose
stdout parses as JSON it returns the parsed value unchanged, which is a
mapping only when the output is a JSON object. The unamended
"always returns a mapping" fails on valid non-object JSON output (see the
counterexample). -/
theorem claim_C6 :
    (∀ t : ℚ, call_llm ProcOutcome.timedOut t =
        llmErrorDict ("LLM timeout after " ++ floatRepr t ++ "s") "") ∧
    (∀ t : ℚ, call_llm ProcOutcome.notFound t = llmErrorDict "Ollama not found" "") ∧
    (∀ (m : String) (t : ℚ), call_llm (ProcOutcome.failed m) t = llmErrorDict m "") ∧
    (∀ (rc : Int) (out errStream : String) (t : ℚ), rc ≠ 0 →
        call_llm (ProcOutcome.completed rc out errStream) t =
          llmErrorDict "LLM process failed"
            (if pyStrip out ≠ "" then pyStrip out else errStream)) ∧
    (∀ (out errStream : String) (t : ℚ) (v : Json),
        jsonLoads (pyStrip out) = some v →
        call_llm (ProcOutcome.completed 0 out errStream) t = v) ∧
    (∀ (out errStream : String) (t : ℚ),
        jsonLoads (pyStrip out) = none →
        call_llm (ProcOutcome.completed 0 out errStream) t =
          llmErrorDict "Invalid JSON from LLM" (pyStrip out)) ∧
    (∀ e r : String, (llmErrorDict e r).isObj = true) := by
  refine ⟨fun t => rfl, fun t => rfl, fun m t => rfl, ?_, ?_, ?_, fun e r => rfl⟩
  · intro rc out errStream t h
    simp [call_llm, h]
  · intro out errStream t v h
    simp [call_llm, h]
  · intro out errStream t h
    simp [call_llm, h]

/-- Closed instantiation of `claim_C6` at each conditional branch. -/
theorem claim_C6_witness :
    call_llm (ProcOutcome.completed 1 "boom" "err") 30 =
      llmErrorDict "LLM process failed" "boom" ∧
    call_llm (ProcOutcome.completed 0 " \x7b\"a\": 1\x7d " "") 30 =
      Json.obj [("a", Json.num 1)] ∧
    call_llm (ProcOutcome.completed 0 "nope" "") 30 =
      llmErrorDict "Invalid JSON from LLM" "nope" :=
  ⟨claim_C6.2.2.2.1 1 "boom" "err" 30 (by decide),
   claim_C6.2.2.2.2.1 " \x7b\"a\": 1\x7d " "" 30 (Json.obj [("a", Json.num 1)]) rfl,
   claim_C6.2.2.2.2.2.1 "nope" "" 30 rfl⟩

/-- The claim as stated is false: a successful call whose stdout is the
valid non-object JSON `[1, 2]` makes `call_llm` return a list, not a
mapping. -/
theorem claim_C6_counterexample :
    (call_llm (ProcOutcome.completed 0 "[1, 2]" "") 30).isObj = false ∧
    call_llm (ProcOutcome.completed 0 "[1, 2]" "") 30 =
      Json.arr [Json.num 1, Json.num 2] :=
  ⟨rfl, rfl⟩

/-- The time spent blocked on a pool future never exceeds the timeout. -/
theorem futureWait_le {α : Type} (timeout taskDur : Int) (v : α) :
    (futureResult timeout taskDur v).2 ≤ timeout := by
  by_cases h : taskDur ≤ timeout
  · simp [futureResult, h]
  · simp [futureResult, h]

/-- A task longer than the timeout yields `FutureTimeoutError` after
exactly the timeout. -/
theorem futureResult_gt {α : Type} (timeout taskDur : Int) (v : α)
    (h : timeout < taskDur) : futureResult timeout taskDur v = (none, timeout) := by
  unfold futureResult
  rw [if_neg (not_le.mpr h)]

/-- The miss-path future wait of `ask_question` is bounded by the
timeout. -/
theorem askProduce_wait_le (cfg : Cfg) (env : Env) (artifact : Artifact)
    (chunks : List Chunk) (qv : String) :
    (askProduce cfg env artifact chunks qv).2.2.1 ≤ cfg.llmTimeout :=
  futureWait_le _ _ _

/-- The miss-path future wait of `semantic_query` is bounded by the
timeout. -/
theorem semProduce_wait_le (cfg : Cfg) (env : Env) (artifact : Artifact)
    (chunks : List Chunk) (qv : String) :
    (semProduce cfg env artifact chunks qv).2.2.2.1 ≤ cfg.llmTimeout :=
  futureWait_le _ _ _

/-- The miss-path duration of `ask_question` is the future wait plus
either the fallback duration or nothing. -/
theorem askProduce_elapsed (cfg : Cfg) (env : Env) (artifact : Artifact)
    (chunks : List Chunk) (qv : String) :
    (askProduce cfg env artifact chunks qv).2.2.2 =
        (askProduce cfg env artifact chunks qv).2.2.1 + env.fallbackDur ∨
      (askProduce cfg env artifact chunks qv).2.2.2 =
        (askProduce cfg env artifact chunks qv).2.2.1 := by
  unfold askProduce
  dsimp only
  split
  · exact Or.inl rfl
  · right
    simp

/-- On a timeout of the pool future, `ask_question`'s miss path consults
the keyword fallback. -/
theorem askProduce_timeout_fallback (cfg : Cfg) (env : Env) (artifact : Artifact)
    (chunks : List Chunk) (qv : String) (h : cfg.llmTimeout < env.chainTaskDur) :
    Effect.fallbackLlm ∈ (askProduce cfg env artifact chunks qv).2.1 := by
  simp [askProduce, futureResult_gt _ _ _ h]

/-- Every pool-future wait of the refinement step is bounded by the
timeout. -/
theorem refineSummary_waits (cfg : Cfg) (env : Env) (artifact : Artifact)
    (sb : SentBreak) (s : Json) :
    ∀ w ∈ (refineSummary cfg env artifact sb s).2.2, w ≤ cfg.llmTimeout := by
  intro w hw
  unfold refineSummary at hw
  dsimp only at hw
  split at hw
  · simp at hw
  · simp only [List.mem_singleton] at hw
    rw [hw]
    exact futureWait_le _ _ _

/-- Every pool-future wait recorded by `_summarize_with_sentiment` is
bounded by the timeout. -/
theorem sws_waits (cfg : Cfg) (env : Env) (chunks : List Chunk)
    (artifact : Artifact) (r : (String × List String × SentBreak) × List Effect × List Int)
    (h : summarize_with_sentiment cfg env chunks artifact = Except.ok r) :
    ∀ w ∈ r.2.2, w ≤ cfg.llmTimeout := by
  intro w hw
  unfold summarize_with_sentiment at h
  by_cases he : chunks.isEmpty
  · rw [if_pos he] at h
    simp only [Except.ok.injEq] at h
    rw [← h] at hw
    simp at hw
  · rw [if_neg he] at h
    cases hs : summarize env chunks "short" none with
    | error e => rw [hs] at h; exact absurd h (by simp)
    | ok sres =>
      rw [hs] at h
      simp only [Except.ok.injEq] at h
      rw [← h] at hw
      exact refineSummary_waits cfg env artifact env.sentimentBreakdown sres w hw

/-- C7 (amended): the invoking thread's wait on a pool future is bounded
by the configured timeout in `ask_question`, `semantic_query` and the
summary-refinement step; on a timeout the chain result is discarded and
the keyword fallback is consulted; and the total modelled duration of
`ask_question` is bounded by the timeout plus the fallback's own duration.
The original "returns within timeout plus a small epsilon" fails because
that fallback performs its own bounded LLM subprocess call on the
invoking thread (see the counterexample). -/
theorem claim_C7 :
    (∀ (cfg : Cfg) (env : Env) (st : OrchState) (mid : String) (chunks : List Chunk)
        (q : Option String) (md : Option MD),
        ∀ w ∈ (ask_question cfg env st mid chunks q md).waits, w ≤ cfg.llmTimeout) ∧
    (∀ (cfg : Cfg) (env : Env) (st : OrchState) (mid : String) (chunks : List Chunk)
        (q : Option String) (md : Option MD),
        ∀ w ∈ (semantic_query cfg env st mid chunks q md).waits, w ≤ cfg.llmTimeout) ∧
    (∀ (cfg : Cfg) (env : Env) (chunks : List Chunk) (artifact : Artifact)
        (r : (String × List String × SentBreak) × List Effect × List Int),
        summarize_with_sentiment cfg env chunks artifact = Except.ok r →
        ∀ w ∈ r.2.2, w ≤ cfg.llmTimeout) ∧
    (∀ (cfg : Cfg) (env : Env) (st : OrchState) (mid : String) (chunks : List Chunk)
        (q : Option String) (md : Option MD),
        0 ≤ cfg.llmTimeout → 0 ≤ env.fallbackDur →
        (ask_question cfg env st mid chunks q md).elapsed ≤
          cfg.llmTimeout + env.fallbackDur) ∧
    (∀ (cfg : Cfg) (env : Env) (st : OrchState) (mid : String) (chunks : List Chunk)
        (q : String) (md : Option MD),
        chunks ≠ [] → pyStrip q ≠ "" →
        alistGet st.qaCache ("ask", mid, chunks.length, pyLower (pyStrip q)) = none →
        cfg.llmTimeout < env.chainTaskDur →
        Effect.fallbackLlm ∈ (ask_question cfg env st mid chunks (some q) md).effects) := by
  refine ⟨?_, ?_, sws_waits, ?_, ?_⟩
  · intro cfg env st mid chunks q md w hw
    unfold ask_question at hw
    dsimp only at hw
    split at hw
    · split at hw
      · simp at hw
      · simp at hw
    · split at hw
      · simp at hw
      · split at hw
        · simp at hw
        · simp only [List.mem_singleton] at hw
          rw [hw]
          exact askProduce_wait_le _ _ _ _ _
  · intro cfg env st mid chunks q md w hw
    unfold semantic_query at hw
    dsimp only at hw
    split at hw
    · split at hw
      · simp at hw
      · simp at hw
    · split at hw
      · simp at hw
      · split at hw
        · simp at hw
        · simp only [List.mem_singleton] at hw
          rw [hw]
          exact semProduce_wait_le _ _ _ _ _
  · intro cfg env st mid chunks q md h1 h2
    have h3 : (0 : Int) ≤ cfg.llmTimeout + env.fallbackDur := add_nonneg h1 h2
    unfold ask_question
    dsimp only
    split
    · split
      · simpa using h3
      · simpa using h3
    · split
      · simpa using h3
      · split
        · simpa using h3
        · dsimp only
          rcases askProduce_elapsed cfg env
              (get_transcript_artifact st mid chunks md).1 chunks
              (pyStrip (q.getD "")) with he | he
          · rw [he]
            exact add_le_add (askProduce_wait_le _ _ _ _ _) le_rfl
          · rw [he]
            exact le_trans (askProduce_wait_le _ _ _ _ _) (le_add_of_nonneg_right h2)
  · intro cfg env st mid chunks q md hne hq hmiss hlt
    have hempty : chunks.isEmpty = false := by
      cases chunks with
      | nil => exact absurd rfl hne
      | cons c cs => rfl
    simp [ask_question, hempty, hq, gta_qaCache, gta_chunkCount, hmiss]
    exact askProduce_timeout_fallback _ _ _ _ _ hlt

/-- Environment whose chain task outlives the 30-second timeout while the
keyword fallback's own LLM subprocess takes 29 seconds and yields an
answer. -/
def envSlow : Env :=
  { callLlm := fun _ _ => Json.obj [("answer", Json.str "Found it.")],
    chainTaskDur := 1000, fallbackDur := 29 }

/-- Closed instantiation of `claim_C7`: the recorded pool wait is within
the timeout, the total duration is within timeout plus fallback duration,
and the timed-out chain is abandoned in favour of the fallback. -/
theorem claim_C7_witness :
    ((30 : Int) ≤ cfg0.llmTimeout) ∧
    (ask_question cfg0 envSlow emptyState "m" [chunkA] (some "budget") none).elapsed ≤
      cfg0.llmTimeout + envSlow.fallbackDur ∧
    Effect.fallbackLlm ∈
      (ask_question cfg0 envSlow emptyState "m" [chunkA] (some "budget") none).effects :=
  ⟨claim_C7.1 cfg0 envSlow emptyState "m" [chunkA] (some "budget") none 30 (by decide),
   claim_C7.2.2.2.1 cfg0 envSlow emptyState "m" [chunkA] (some "budget") none
     (by decide) (by decide),
   claim_C7.2.2.2.2 cfg0 envSlow emptyState "m" [chunkA] "budget" none
     (List.cons_ne_nil _ _) (by decide) rfl (by decide)⟩

/-- The claim as stated is false: with the default 30-second timeout, a
chain task of 1000 seconds and a 29-second fallback subprocess, the call
returns after 59 modelled seconds - the fallback's own LLM call runs on
the invoking thread after the future is abandoned, so the method does not
return within the timeout plus a small epsilon. -/
theorem claim_C7_counterexample :
    (ask_question cfg0 envSlow emptyState "m" [chunkA] (some "budget") none).elapsed = 59 ∧
    ¬ ((ask_question cfg0 envSlow emptyState "m" [chunkA] (some "budget") none).elapsed ≤
        cfg0.llmTimeout + 1) :=
  ⟨rfl, by decide⟩
